/-
Verification of the job-orchestration core of cloud-vibecoder.

Shallow embedding of:
  backend/app/services/coding_agent_main.py  (CodingAgent: execute_plan,
    execute_step, _get_files_for_step)
  backend/app/services/orchestration_service.py  (OrchestrationService:
    create_job, execute_job, cancel_job, _update_progress)
  backend/app/models/agent_model.py, plan_model.py, orchestration_model.py

External calls (the E2B sandbox, git, GitHub, the LLM, the syntax
validators) are modelled as oracles: a record of outcomes, one per call
site, so every real run of the Python code corresponds to one choice of
oracle.  Fields of the Python models that the orchestration core never
reads (timestamps, wall-clock durations, prompt text, plan metadata such
as testing_plan / risk_notes, the optional Supabase metrics mirror, and
list ordering of the registry dict) are not modelled; everything the
control flow reads is.
-/

import Mathlib

set_option linter.unusedVariables false

/-! ## Plan model (plan_model.py) -/

/-- `FileIntent` from plan_model.py. -/
inductive FileIntent
  | create
  | modify
  | delete
  | refactor
deriving DecidableEq, Repr

/-- `FileChange` from plan_model.py (diff_stub, unread by the executor, omitted). -/
structure FileChange where
  path : String
  intent : FileIntent
  rationale : String
  priority : Int
deriving DecidableEq, Repr

/-- `PlanStep` from plan_model.py (fields the executor never reads omitted;
dependencies are advisory and unread). -/
structure PlanStep where
  step_number : Int
  title : String
  description : String
deriving DecidableEq, Repr

/-- `ImplementationPlan` from plan_model.py (metadata fields unread by the
executor omitted). -/
structure ImplementationPlan where
  title : String
  steps : List PlanStep
  files_to_change : List FileChange
deriving DecidableEq, Repr

/-! ## Agent model (agent_model.py) -/

/-- `AgentStepStatus` from agent_model.py. -/
inductive AgentStepStatus
  | pending
  | in_progress
  | completed
  | failed
  | skipped
deriving DecidableEq, Repr

/-- `EditType` from agent_model.py. -/
inductive EditType
  | create
  | modify
  | delete
deriving DecidableEq, Repr

/-- `FileEdit` from agent_model.py. -/
structure FileEdit where
  file_path : String
  original_content : Option String
  new_content : String
  edit_type : EditType
  lines_added : Int
  lines_removed : Int
deriving DecidableEq, Repr

/-- `ValidationResult` from agent_model.py. -/
structure ValidationResult where
  success : Bool
  file_path : String
  error_message : Option String
  validation_type : String
deriving DecidableEq, Repr

/-- `AgentStepResult` from agent_model.py (execution_time_seconds, a
wall-clock number, omitted). -/
structure AgentStepResult where
  step_number : Int
  step_title : String
  status : AgentStepStatus
  edits : List FileEdit
  validations : List ValidationResult
  error_message : Option String
  llm_tokens_used : Int
  commit_sha : Option String
deriving DecidableEq, Repr

/-- `AgentExecutionResult` from agent_model.py (timestamps and wall-clock
duration omitted). -/
structure AgentExecutionResult where
  success : Bool
  steps_completed : List AgentStepResult
  total_edits : Int
  total_files_changed : Int
  commits_created : List String
  error_message : Option String
  total_tokens_used : Int
deriving DecidableEq, Repr

/-! ## Python string helpers used by the executor -/

/-- `len(s.split('\n'))` — one more than the number of newline characters;
on the empty string it yields 1. -/
def pyLineCount (s : String) : Int := ((s.data.count '\n' : Nat) : Int) + 1

/-- `len(current_content.split('\n')) if current_content else 0` — the
Python truthiness test maps the empty string to 0. -/
def pyOldLineCount (s : String) : Int := if s = "" then 0 else pyLineCount s

/-- Line count of an optional original content, as execute_step computes it:
a missing file contributes 0 (current_content is then the empty string). -/
def pyOptLineCount : Option String → Int
  | none => 0
  | some s => pyOldLineCount s

/-! ## Candidate selection (CodingAgent._get_files_for_step) -/

/-- `path.split('/')[-1]` as a character list: the characters after the
last slash (the whole string when there is none). -/
def lastSegment (l : List Char) : List Char :=
  (l.reverse.takeWhile (fun c => c ≠ '/')).reverse

/-- The directory test of _get_files_for_step:
`path.endswith('/') or (path and '.' not in path.split('/')[-1])`. -/
def isDirPath (p : String) : Bool :=
  p.data.getLast? == some '/' ||
    (!p.data.isEmpty && !(lastSegment p.data).contains '.')

/-- The directory-to-file rewrite of _get_files_for_step:
`base_path = path.rstrip('/'); f"{base_path}/main.py" if base_path else "main.py"`. -/
def fixPath (p : String) : String :=
  let base := (p.data.reverse.dropWhile (fun c => c = '/')).reverse
  if base.isEmpty then "main.py" else String.mk base ++ "/main.py"

/-- The in-place path fix applied to one FileChange when its path looks
like a directory (lines 279-287 of coding_agent_main.py). -/
def fixFile (f : FileChange) : FileChange :=
  if isDirPath f.path then { f with path := fixPath f.path } else f

/-- The fix as applied during _get_files_for_step: only entries whose
priority qualifies them for the step are touched. -/
def condFix (n : Int) (f : FileChange) : FileChange :=
  if f.priority ≤ n then fixFile f else f

/-- Stable insertion into a list sorted by key `k`: the new element goes in
front of the first element whose key is not smaller.  Used to model
Python's stable `list.sort(key=...)`. -/
def insertByKey {α : Type} (k : α → Int) (a : α) : List α → List α
  | [] => [a]
  | b :: l => if k b < k a then b :: insertByKey k a l else a :: b :: l

/-- Stable sort by key `k`; computes the same function as Python's stable
`list.sort(key=...)`. -/
def sortByKey {α : Type} (k : α → Int) : List α → List α
  | [] => []
  | a :: l => insertByKey k a (sortByKey k l)

/-- `CodingAgent._get_files_for_step` (lines 266-293).  The Python code
filters `plan.files_to_change` down to references whose
`priority <= step.step_number`, rewrites directory-looking paths in place
(mutating the shared plan entries), sorts the references by priority
(Python's sort is stable) and keeps the first 3.  The first component is
the mutated `files_to_change` store; the second is the selected candidate
list, each candidate paired with its index in the store (modelling the
shared references). -/
def get_files_for_step (n : Int) (files : List FileChange) :
    List FileChange × List (Nat × FileChange) :=
  let files2 := files.map (condFix n)
  let relevant := files2.enum.filter (fun p => p.2.priority ≤ n)
  (files2, (sortByKey (fun p => p.2.priority) relevant).take 3)

/-! ## Per-file processing inside CodingAgent.execute_step -/

/-- Oracle for the external calls made while processing one candidate file:
`tools.file_exists`, `tools.read_file`, `_generate_code_change` (the LLM;
`gen = none` models the call raising, which the per-file `except` turns
into skipping the file — the same observable effect as a raise in any of
the other per-file calls), `tools.validate_syntax`, `tools.write_file`. -/
structure FileOutcome where
  fileExists : Bool
  content : String
  gen : Option (String × Int)
  validation : ValidationResult
  writeOk : Bool
deriving Repr

/-- Oracle for a whole agent run: `file i j` is the outcome of processing
candidate number `j` of the step at position `i` of `plan.steps`;
`commit i` is the commit sha `_create_commit_for_step` returns for that
step (`none` models the helper catching an error and returning None). -/
structure AgentEnv where
  file : Nat → Nat → FileOutcome
  commit : Nat → Option String

/-- Result of processing one candidate file. -/
structure ProcOut where
  fc : FileChange
  edit : Option FileEdit
  vals : List ValidationResult
  tokens : Int
deriving Repr

/-- The body of the per-file loop of `CodingAgent.execute_step`
(lines 167-232): existence check, create-to-modify downgrade (an in-place
mutation of the shared FileChange), read, LLM generation, validation
(appended to the step's validation list whenever generation returned),
write, and the FileEdit with its line-count deltas. -/
def processFile (fc : FileChange) (o : FileOutcome) : ProcOut :=
  let fc2 := if fc.intent = FileIntent.create ∧ o.fileExists = true
             then { fc with intent := FileIntent.modify } else fc
  let current := if o.fileExists then o.content else ""
  match o.gen with
  | none => ⟨fc2, none, [], 0⟩
  | some (newContent, tokens) =>
    if o.validation.success = false then ⟨fc2, none, [o.validation], tokens⟩
    else if o.writeOk then
      ⟨fc2,
       some { file_path := fc.path
              original_content := if o.fileExists then some current else none
              new_content := newContent
              edit_type := if o.fileExists then EditType.modify else EditType.create
              lines_added := max 0 (pyLineCount newContent - pyOldLineCount current)
              lines_removed := max 0 (pyOldLineCount current - pyLineCount newContent) },
       [o.validation], tokens⟩
    else ⟨fc2, none, [o.validation], tokens⟩

/-- Accumulator of the per-file loop: the (shared, mutated) file store and
the step's growing edits, validations and token count. -/
structure StepAcc where
  store : List FileChange
  edits : List FileEdit
  validations : List ValidationResult
  tokens : Int

/-- One iteration of the per-file loop; `jc = (j, (i, fc))` is candidate
number `j`, referencing store index `i`. -/
def stepFold (env : AgentEnv) (stepIdx : Nat) (acc : StepAcc)
    (jc : Nat × (Nat × FileChange)) : StepAcc :=
  let pf := processFile jc.2.2 (env.file stepIdx jc.1)
  { store := acc.store.set jc.2.1 pf.fc
    edits := acc.edits ++ pf.edit.toList
    validations := acc.validations ++ pf.vals
    tokens := acc.tokens + pf.tokens }

/-- `CodingAgent.execute_step` (lines 136-264).  Candidates are selected,
each one is processed independently (a per-file failure only skips that
file), and the status is `skipped` when there were no candidates,
`completed` when at least one edit was produced, `failed` otherwise.  The
outer `except` of the Python function is unreachable: everything it guards
is the early return and the per-file loop whose body has its own
`except ... continue`.  Returns the step result and the mutated store. -/
def execute_step (env : AgentEnv) (stepIdx : Nat) (step : PlanStep)
    (files : List FileChange) : AgentStepResult × List FileChange :=
  let pr := get_files_for_step step.step_number files
  if pr.2.isEmpty then
    ({ step_number := step.step_number, step_title := step.title
       status := AgentStepStatus.skipped, edits := [], validations := []
       error_message := some "No files to modify"
       llm_tokens_used := 0, commit_sha := none }, pr.1)
  else
    let final := pr.2.enum.foldl (stepFold env stepIdx) ⟨pr.1, [], [], 0⟩
    ({ step_number := step.step_number, step_title := step.title
       status := if final.edits.isEmpty then AgentStepStatus.failed
                 else AgentStepStatus.completed
       edits := final.edits, validations := final.validations
       error_message := if final.edits.isEmpty
                        then some "Failed to process any files" else none
       llm_tokens_used := final.tokens, commit_sha := none }, final.store)

/-- `len(set(...))`: the number of distinct elements, computed by a
left-to-right structural pass. -/
def pyUniqueCount (l : List String) : Nat :=
  (l.foldl (fun acc x => if acc.contains x then acc else acc ++ [x]) []).length

/-- Accumulator of the step loop of `CodingAgent.execute_plan`. -/
structure PlanAcc where
  store : List FileChange
  results : List AgentStepResult
  commits : List String
  tokens : Int

/-- One iteration of the step loop of `CodingAgent.execute_plan`
(lines 57-90): run the step, accumulate its token count, and commit when
the step completed with edits.  The `except ...: break` of the Python
loop is dead code: `execute_step` catches every exception and returns a
result with status `failed` instead of raising, and
`_create_commit_for_step` catches its own exceptions and returns None, so
the loop body never raises and the loop never breaks. -/
def planFold (env : AgentEnv) (acc : PlanAcc) (istep : Nat × PlanStep) : PlanAcc :=
  let pr := execute_step env istep.1 istep.2 acc.store
  let tokens2 := acc.tokens + pr.1.llm_tokens_used
  if pr.1.status = AgentStepStatus.completed ∧ pr.1.edits ≠ [] then
    match env.commit istep.1 with
    | some sha =>
      { store := pr.2, results := acc.results ++ [{ pr.1 with commit_sha := some sha }]
        commits := acc.commits ++ [sha], tokens := tokens2 }
    | none =>
      { store := pr.2, results := acc.results ++ [pr.1]
        commits := acc.commits, tokens := tokens2 }
  else
    { store := pr.2, results := acc.results ++ [pr.1]
      commits := acc.commits, tokens := tokens2 }

/-- `CodingAgent.execute_plan` (lines 42-134).  Iterates the plan's steps
in list order, then aggregates: success iff every recorded step completed,
edit totals, unique changed files, commits, tokens.  The outer `except`
(fatal error) is unreachable for the same reason the inner break is.
Returns the execution result and the final (mutated) `files_to_change`. -/
def execute_plan (env : AgentEnv) (plan : ImplementationPlan) :
    AgentExecutionResult × List FileChange :=
  let acc := plan.steps.enum.foldl (planFold env) ⟨plan.files_to_change, [], [], 0⟩
  ({ success := acc.results.all (fun r => r.status == AgentStepStatus.completed)
     steps_completed := acc.results
     total_edits := ((acc.results.map (fun r => r.edits.length)).sum : Int)
     total_files_changed :=
       (pyUniqueCount ((acc.results.map (fun r => r.edits)).flatten.map
         (fun e => e.file_path)) : Int)
     commits_created := acc.commits
     error_message := none
     total_tokens_used := acc.tokens }, acc.store)

/-! ## Orchestration model (orchestration_model.py) -/

/-- `JobStatus` from orchestration_model.py. -/
inductive JobStatus
  | pending
  | initializing_vm
  | creating_repo
  | cloning_repo
  | executing_agent
  | pushing_changes
  | completed
  | failed
  | cancelled
deriving DecidableEq, Repr

/-- The string value of each JobStatus member (it is a `str` Enum). -/
def JobStatus.value : JobStatus → String
  | .pending => "pending"
  | .initializing_vm => "initializing_vm"
  | .creating_repo => "creating_repo"
  | .cloning_repo => "cloning_repo"
  | .executing_agent => "executing_agent"
  | .pushing_changes => "pushing_changes"
  | .completed => "completed"
  | .failed => "failed"
  | .cancelled => "cancelled"

/-- The three terminal states named by the spec (section 3). -/
def JobStatus.isTerminal : JobStatus → Bool
  | .completed => true
  | .failed => true
  | .cancelled => true
  | _ => false

/-- `NewRepoConfig` from orchestration_model.py. -/
structure NewRepoConfig where
  name : String
  description : Option String
  isPrivate : Bool
  gitignore_template : Option String
  license_template : Option String
deriving DecidableEq, Repr

/-- `JobRequest` from orchestration_model.py.  `implementation_plan` (an
untyped dict that only the agent stage parses — parse failure is part of
the agent-stage oracle) and `user_id` (metrics attribution only) are not
modelled. -/
structure JobRequest where
  repo_url : Option String
  branch : String
  create_new_repo : Bool
  new_repo_config : Option NewRepoConfig
  github_token : String
  create_new_branch : Bool
  new_branch_name : Option String
  push_changes : Bool
deriving DecidableEq, Repr

/-- Python truthiness of an optional string: None and "" are falsy. -/
def pyFalsy : Option String → Bool
  | none => true
  | some s => s = ""

/-- `JobRequest.model_post_init` (orchestration_model.py lines 49-56):
pydantic runs this as validation when the request object is constructed,
before any Job can be registered; an error here is the only rejection the
job-creation path performs. -/
def JobRequest.model_post_init (r : JobRequest) : Except String JobRequest :=
  if r.create_new_repo then
    if r.new_repo_config = none then
      Except.error "new_repo_config is required when create_new_repo is True"
    else Except.ok r
  else
    if pyFalsy r.repo_url then
      Except.error "repo_url is required when create_new_repo is False"
    else Except.ok r

/-- `JobProgress` from orchestration_model.py. -/
structure JobProgress where
  status : JobStatus
  current_step : Option String
  progress_percentage : Int
  message : Option String
deriving DecidableEq, Repr

/-- `JobResult` from orchestration_model.py (timestamps and the wall-clock
execution_time_seconds omitted). -/
structure JobResult where
  job_id : String
  status : JobStatus
  success : Bool
  vm_session_id : Option String
  repo_url : Option String
  repo_path : Option String
  branch_name : Option String
  created_new_repo : Bool
  files_changed : Int
  commits_created : Int
  total_edits : Int
  tokens_used : Int
  error_message : Option String
  error_stage : Option String
  commit_shas : List String
  pushed : Bool
deriving DecidableEq, Repr

/-- `Job` from orchestration_model.py (created_at timestamp omitted). -/
structure Job where
  job_id : String
  request : JobRequest
  progress : JobProgress
  result : Option JobResult
deriving DecidableEq, Repr

/-! ## Job registry (OrchestrationService.jobs) -/

/-- The in-memory registry `self.jobs : Dict[str, Job]`, modelled as a map;
the claims never observe iteration order. -/
structure OrchState where
  jobs : String → Option Job

/-- `self.jobs.get(job_id)` / `job_id in self.jobs`. -/
def findJob (s : OrchState) (id : String) : Option Job := s.jobs id

/-- `self.jobs[job_id] = job`. -/
def setJob (s : OrchState) (id : String) (j : Job) : OrchState :=
  ⟨fun k => if k = id then some j else s.jobs k⟩

/-- The registry at process start: empty. -/
def emptyState : OrchState := ⟨fun _ => none⟩

/-- `OrchestrationService._update_progress` (lines 397-412): replaces the
job's whole JobProgress; a no-op when the id is unknown. -/
def update_progress (s : OrchState) (id : String) (st : JobStatus) (pct : Int)
    (msg : String) : OrchState :=
  match findJob s id with
  | none => s
  | some job =>
    setJob s id { job with progress :=
      { status := st, current_step := some st.value
        progress_percentage := pct, message := some msg } }

/-- `job.result = result` (lines 291 / 357): writes the terminal result on
the registered job object. -/
def setJobResult (s : OrchState) (id : String) (r : JobResult) : OrchState :=
  match findJob s id with
  | none => s
  | some job => setJob s id { job with result := some r }

/-- `OrchestrationService.create_job` (lines 47-93): registers a fresh Job
in status pending (the optional database mirror is not modelled; the
job id, a uuid4 in Python, is a parameter). -/
def create_job (s : OrchState) (job_id : String) (request : JobRequest) :
    OrchState × Job :=
  let job : Job :=
    { job_id := job_id, request := request
      progress := { status := JobStatus.pending, current_step := none
                    progress_percentage := 0
                    message := some "Job created, waiting to start" }
      result := none }
  (setJob s job_id job, job)

/-- `OrchestrationService.cancel_job` (lines 432-459): refuses unknown and
terminal jobs, otherwise records status cancelled at percentage 0.  Note
that it writes no JobResult. -/
def cancel_job (s : OrchState) (id : String) : OrchState × Bool :=
  match findJob s id with
  | none => (s, false)
  | some job =>
    if job.progress.status = JobStatus.completed ∨
       job.progress.status = JobStatus.failed ∨
       job.progress.status = JobStatus.cancelled then (s, false)
    else (update_progress s id JobStatus.cancelled 0 "Job cancelled by user", true)

/-! ## OrchestrationService.execute_job -/

/-- Observable outcome of `GitHubService.create_repository`. -/
structure CreateRepoOutcome where
  success : Bool
  html_url : String
  full_name : String
  default_branch : String
  error_message : Option String
deriving DecidableEq, Repr

/-- Oracle for one run of execute_job: the outcome of each external call.
`Except.error e` models the call raising an exception with message `e`.
`destroy` is the outcome of `vm_service.destroy_session`; the Python code
wraps that call in `try/except` and ignores its boolean, so nothing
depends on it.  `repo_service.create_branch` catches its own exceptions
and its boolean result is ignored by execute_job, so it needs no field. -/
structure OrchEnv where
  create_session : Except String String
  create_repository : Except String CreateRepoOutcome
  clone_repository : Except String String
  agent : Except String AgentExecutionResult
  push : Except String Bool
  destroy : Except String Bool

/-- Python str() of an optional string as an f-string renders it: None
prints as "None". -/
def pyStr : Option String → String
  | none => "None"
  | some s => s

/-- The external calls and progress updates a run performs, in order. -/
inductive Eff
  | progress (st : JobStatus)
  | create_session
  | create_repository
  | clone
  | create_branch (name : String)
  | agent
  | push (branch : String)
  | destroy (sid : String)
deriving DecidableEq, Repr

/-- The `finally` block of execute_job (lines 376-383): destroy the VM
session when one was provisioned; the destroy outcome is swallowed. -/
def finallyDestroy (s : OrchState) (r : Except String JobResult) (tr : List Eff)
    (vm : Option String) : OrchState × Except String JobResult × List Eff :=
  match vm with
  | none => (s, r, tr)
  | some sid => (s, r, tr ++ [Eff.destroy sid])

/-- The error-stage classification of execute_job (lines 318-330): a fixed
renaming of the JobStatus current when the exception surfaced, with
default "unknown". -/
def error_stage_of : JobStatus → String
  | .initializing_vm => "vm_initialization"
  | .creating_repo => "repository_creation"
  | .cloning_repo => "repository_cloning"
  | .executing_agent => "agent_execution"
  | .pushing_changes => "pushing_changes"
  | _ => "unknown"

/-- The `except` handler of execute_job (lines 315-374) followed by the
`finally`: classify the stage from the progress status current at the
exception, record FAILED progress, write the failed JobResult, return it. -/
def failStage (s : OrchState) (id : String) (tr : List Eff) (vm : Option String)
    (repo_url : Option String) (repo_path : Option String) (branch : String)
    (creNew : Bool) (msg : String) : OrchState × Except String JobResult × List Eff :=
  let stage := match findJob s id with
    | some job => error_stage_of job.progress.status
    | none => "unknown"
  let s1 := update_progress s id JobStatus.failed 0 ("Job failed: " ++ msg)
  let res : JobResult :=
    { job_id := id, status := JobStatus.failed, success := false
      vm_session_id := vm, repo_url := repo_url, repo_path := repo_path
      branch_name := some branch, created_new_repo := creNew
      files_changed := 0, commits_created := 0, total_edits := 0, tokens_used := 0
      error_message := some msg, error_stage := some stage
      commit_shas := [], pushed := false }
  finallyDestroy (setJobResult s1 id res) (Except.ok res)
    (tr ++ [Eff.progress JobStatus.failed]) vm

/-- The boolean `pushed` after the guarded push block (lines 248-259): the
push result's success flag, or false when the push raised. -/
def pushedFlag (env : OrchEnv) : Bool :=
  match env.push with
  | .ok b => b
  | .error _ => false

/-- Stages 4-5 of execute_job (lines 238-313): optional push (attempted
only when the request asked for it and the agent produced commits; a raise
is caught and only leaves pushed=false), COMPLETED progress, success
JobResult, teardown. -/
def completeStage (env : OrchEnv) (s : OrchState) (id : String) (req : JobRequest)
    (tr : List Eff) (vm : String) (repo_url : Option String) (path : String)
    (branch : String) (creNew : Bool) (ar : AgentExecutionResult) :
    OrchState × Except String JobResult × List Eff :=
  let doPush := req.push_changes && !ar.commits_created.isEmpty
  let s1 := if doPush then
      update_progress s id JobStatus.pushing_changes 80
        ("Pushing changes to " ++ branch ++ "...")
    else s
  let tr1 := if doPush then tr ++ [Eff.progress JobStatus.pushing_changes, Eff.push branch]
    else tr
  let pushed := if doPush then pushedFlag env else false
  let s2 := update_progress s1 id JobStatus.completed 100 "Job completed successfully!"
  let res : JobResult :=
    { job_id := id, status := JobStatus.completed, success := true
      vm_session_id := some vm, repo_url := repo_url, repo_path := some path
      branch_name := some branch, created_new_repo := creNew
      files_changed := ar.total_files_changed
      commits_created := (ar.commits_created.length : Int)
      total_edits := ar.total_edits, tokens_used := ar.total_tokens_used
      error_message := none, error_stage := none
      commit_shas := ar.commits_created, pushed := pushed }
  finallyDestroy (setJobResult s2 id res) (Except.ok res)
    (tr1 ++ [Eff.progress JobStatus.completed]) (some vm)

/-- Stage 3b of execute_job (lines 200-236): EXECUTING_AGENT progress, run
the agent (a raise, including a malformed plan failing to parse, fails the
job; so does an agent result with success=False). -/
def agentStage (env : OrchEnv) (s : OrchState) (id : String) (req : JobRequest)
    (tr : List Eff) (vm : String) (repo_url : Option String) (path : String)
    (branch : String) (creNew : Bool) : OrchState × Except String JobResult × List Eff :=
  let s1 := update_progress s id JobStatus.executing_agent 40
    "Executing coding agent with LLM..."
  let tr1 := tr ++ [Eff.progress JobStatus.executing_agent, Eff.agent]
  match env.agent with
  | .error e => failStage s1 id tr1 (some vm) repo_url (some path) branch creNew e
  | .ok ar =>
    if ar.success then completeStage env s1 id req tr1 vm repo_url path branch creNew ar
    else failStage s1 id tr1 (some vm) repo_url (some path) branch creNew
      ("Agent execution failed: " ++ pyStr ar.error_message)

/-- Stage 3 of execute_job (lines 166-198): CLONING_REPO progress, clone
(a raise fails the job), then the optional new branch: skipped entirely
for a freshly created repository; otherwise the requested name or the
deterministic `vibecoder-<first 8 chars of the job id>` fallback
(`create_branch` cannot raise and its result is ignored). -/
def cloneStage (env : OrchEnv) (s : OrchState) (id : String) (req : JobRequest)
    (tr : List Eff) (vm : String) (repo_url : Option String) (branch : String)
    (creNew : Bool) : OrchState × Except String JobResult × List Eff :=
  let s1 := update_progress s id JobStatus.cloning_repo 25
    ("Cloning repository " ++ pyStr repo_url ++ "...")
  let tr1 := tr ++ [Eff.progress JobStatus.cloning_repo, Eff.clone]
  match env.clone_repository with
  | .error e => failStage s1 id tr1 (some vm) repo_url none branch creNew e
  | .ok path =>
    if req.create_new_branch && !creNew then
      let nb := match req.new_branch_name with
        | some n => if n = "" then "vibecoder-" ++ String.mk (id.data.take 8) else n
        | none => "vibecoder-" ++ String.mk (id.data.take 8)
      agentStage env s1 id req (tr1 ++ [Eff.create_branch nb]) vm repo_url path nb creNew
    else agentStage env s1 id req tr1 vm repo_url path branch creNew

/-- Stage 2 of execute_job (lines 133-165): when the request asks for a new
repository, CREATING_REPO progress and the creation call; a raise or an
unsuccessful result fails the job, success replaces the repo url and
branch with the new repository's and sets created_new_repo.  The `none`
config branch models the AttributeError Python would raise while building
the progress message (so before the CREATING_REPO update); it is
unreachable for validated requests. -/
def createRepoStage (env : OrchEnv) (s : OrchState) (id : String) (req : JobRequest)
    (tr : List Eff) (vm : String) : OrchState × Except String JobResult × List Eff :=
  if req.create_new_repo then
    match req.new_repo_config with
    | none => failStage s id tr (some vm) req.repo_url none req.branch false
        "AttributeError"
    | some cfg =>
      let s1 := update_progress s id JobStatus.creating_repo 15
        ("Creating repository: " ++ cfg.name ++ "...")
      let tr1 := tr ++ [Eff.progress JobStatus.creating_repo, Eff.create_repository]
      match env.create_repository with
      | .error e => failStage s1 id tr1 (some vm) req.repo_url none req.branch false e
      | .ok cr =>
        if cr.success then
          cloneStage env s1 id req tr1 vm (some cr.html_url) cr.default_branch true
        else
          failStage s1 id tr1 (some vm) req.repo_url none req.branch false
            ("Failed to create repository: " ++ pyStr cr.error_message)
  else cloneStage env s id req tr vm req.repo_url req.branch false

/-- `OrchestrationService.execute_job` (lines 95-383).  An unknown job id
raises before the try block (so no teardown and no progress change); for a
known job every outcome, success or failure, ends in a terminal progress
status, a written JobResult, and teardown of the provisioned session.
Returns the final registry, the returned-or-raised value, and the trace of
external calls and progress updates. -/
def execute_job (env : OrchEnv) (s : OrchState) (id : String) :
    OrchState × Except String JobResult × List Eff :=
  match findJob s id with
  | none => (s, Except.error ("Job " ++ id ++ " not found"), [])
  | some job =>
    let s1 := update_progress s id JobStatus.initializing_vm 10 "Creating VM session..."
    let tr1 := [Eff.progress JobStatus.initializing_vm, Eff.create_session]
    match env.create_session with
    | .error e => failStage s1 id tr1 none job.request.repo_url none job.request.branch false e
    | .ok vm => createRepoStage env s1 id job.request tr1 vm

/-! ## Spec-side definitions (used to compare code against the spec's words) -/

/-- Candidate selection as the spec words it (section 4.2 step 1): every
FileChange whose priority is at most the step number, sorted by priority
ascending (stably), truncated to 3, and each selected directory-looking
path rewritten to a concrete file path. -/
def candidateSpec (n : Int) (files : List FileChange) : List FileChange :=
  ((sortByKey (fun f => f.priority) (files.filter (fun f => f.priority ≤ n))).take 3).map
    fixFile

/-- The two in-place rewrites the step executor performs on a plan entry:
the directory-path fix and the create-to-modify intent downgrade. -/
def fcStep (f g : FileChange) : Prop :=
  (isDirPath f.path = true ∧ g = { f with path := fixPath f.path }) ∨
  (f.intent = FileIntent.create ∧ g = { f with intent := FileIntent.modify })

/-- A plan entry after execution relates to the original by a (possibly
empty) chain of the two rewrites. -/
def fcEvolves (f g : FileChange) : Prop := Relation.ReflTransGen fcStep f g

/-- Registry states reachable through the orchestration surface: the empty
registry, then any interleaving of create_job, execute_job (any oracle)
and cancel_job. -/
inductive Reachable : OrchState → Prop
  | empty : Reachable emptyState
  | create (s : OrchState) (id : String) (req : JobRequest) :
      Reachable s → Reachable (create_job s id req).1
  | exec (s : OrchState) (env : OrchEnv) (id : String) :
      Reachable s → Reachable (execute_job env s id).1
  | cancel (s : OrchState) (id : String) :
      Reachable s → Reachable (cancel_job s id).1

/-- The result/terminal-status invariant that actually holds of the code:
a JobResult is present exactly on status completed or failed. -/
def jobInv (s : OrchState) : Prop :=
  ∀ id j, findJob s id = some j →
    (j.result ≠ none ↔
      (j.progress.status = JobStatus.completed ∨ j.progress.status = JobStatus.failed))

/-- The progress statuses recorded in a trace, in order. -/
def progressOf : List Eff → List JobStatus
  | [] => []
  | Eff.progress st :: tr => st :: progressOf tr
  | _ :: tr => progressOf tr

/-- Whether a trace event is a teardown attempt. -/
def Eff.isDestroy : Eff → Bool
  | Eff.destroy _ => true
  | _ => false

/-- Whether a trace event is a push attempt. -/
def Eff.isPush : Eff → Bool
  | Eff.push _ => true
  | _ => false

/-! ## Concrete inputs for counterexamples and witnesses -/

/-- A passing validation record. -/
def valOk (p : String) : ValidationResult :=
  { success := true, file_path := p, error_message := none, validation_type := "syntax" }

/-- A failing validation record. -/
def valBad (p : String) : ValidationResult :=
  { success := false, file_path := p, error_message := some "invalid syntax"
    validation_type := "syntax" }

/-- A two-step plan touching one concrete file. -/
def plan1 : ImplementationPlan :=
  { title := "demo"
    steps := [ { step_number := 1, title := "one", description := "d1" }
             , { step_number := 2, title := "two", description := "d2" } ]
    files_to_change := [ { path := "a.py", intent := FileIntent.modify
                           rationale := "r", priority := 1 } ] }

/-- Oracle under which step 1 fails validation on its only candidate and
step 2 succeeds on the same candidate and commits. -/
def env1 : AgentEnv :=
  { file := fun si _j =>
      if si = 0 then
        { fileExists := true, content := "old", gen := some ("new", 5)
          validation := valBad "a.py", writeOk := true }
      else
        { fileExists := true, content := "old", gen := some ("new2", 7)
          validation := valOk "a.py", writeOk := true }
    commit := fun si => if si = 1 then some "sha1" else none }

/-- A one-step plan whose single entry has a directory-looking path and
create intent. -/
def plan0 : ImplementationPlan :=
  { title := "demo0"
    steps := [ { step_number := 1, title := "one", description := "d" } ]
    files_to_change := [ { path := "src/utils", intent := FileIntent.create
                           rationale := "r", priority := 1 } ] }

/-- Oracle under which the candidate exists (forcing the intent downgrade)
and the LLM call raises (so no edit is produced). -/
def env0 : AgentEnv :=
  { file := fun _ _ =>
      { fileExists := true, content := "", gen := none
        validation := valOk "src/utils/main.py", writeOk := false }
    commit := fun _ => none }

/-- A valid existing-repository request. -/
def reqExisting : JobRequest :=
  { repo_url := some "https://github.com/octo/demo", branch := "main"
    create_new_repo := false, new_repo_config := none
    github_token := "tok", create_new_branch := true
    new_branch_name := none, push_changes := true }

/-- A new-repository configuration. -/
def cfg0 : NewRepoConfig :=
  { name := "fresh", description := some "d", isPrivate := false
    gitignore_template := none, license_template := none }

/-- A request that names an existing repository AND a new-repository
configuration at the same time. -/
def reqBoth : JobRequest :=
  { repo_url := some "https://github.com/octo/demo", branch := "main"
    create_new_repo := true, new_repo_config := some cfg0
    github_token := "tok", create_new_branch := false
    new_branch_name := none, push_changes := false }

/-- A successful agent outcome with one commit. -/
def arOk : AgentExecutionResult :=
  { success := true, steps_completed := [], total_edits := 1
    total_files_changed := 1, commits_created := ["c1"]
    error_message := none, total_tokens_used := 9 }

/-- Oracle in which every stage succeeds but the push reports failure. -/
def envPushFail : OrchEnv :=
  { create_session := Except.ok "vm1"
    create_repository := Except.error "unused"
    clone_repository := Except.ok "/home/user/demo"
    agent := Except.ok arOk
    push := Except.ok false
    destroy := Except.ok true }

/-- Oracle in which provisioning the VM session raises. -/
def envVmFail : OrchEnv :=
  { create_session := Except.error "boom"
    create_repository := Except.error "unused"
    clone_repository := Except.error "unused"
    agent := Except.error "unused"
    push := Except.error "unused"
    destroy := Except.ok true }

/-- A registry holding the single job "j1" created from reqExisting. -/
def state1 : OrchState := (create_job emptyState "j1" reqExisting).1

/-- What every run of execute_job on a registered job guarantees about the
final registry: the returned JobResult is written on the job, its status
matches the job's terminal progress status, that status is completed or
failed, and no other job is touched. -/
def StagePost (s : OrchState) (id : String)
    (out : OrchState × Except String JobResult × List Eff) : Prop :=
  ∃ res j2, out.2.1 = Except.ok res ∧
    (res.status = JobStatus.completed ∨ res.status = JobStatus.failed) ∧
    findJob out.1 id = some j2 ∧ j2.result = some res ∧
    j2.progress.status = res.status ∧
    (∀ id2, id2 ≠ id → findJob out.1 id2 = findJob s id2)

/-- The push attempt did not succeed: the call raised, or returned a
result whose success flag is false. -/
def pushFailed (env : OrchEnv) : Prop :=
  match env.push with
  | Except.ok b => b = false
  | Except.error _ => True

/-- The conditions under which execute_job attempts a push: the agent call
returned a successful result with at least one commit, and the request's
push toggle is set. -/
def PushFacts (env : OrchEnv) (req : JobRequest) : Prop :=
  ∃ ar, env.agent = Except.ok ar ∧ ar.success = true ∧ req.push_changes = true ∧
    ar.commits_created ≠ []

/-- Push accounting for one stage: any push event in the stage's output
trace was either already in the incoming trace, or the push conditions
held and the stage's returned result is a completed success whose pushed
flag is exactly the push outcome. -/
def StagePush (env : OrchEnv) (req : JobRequest) (tr : List Eff)
    (out : OrchState × Except String JobResult × List Eff) : Prop :=
  (∃ b, Eff.push b ∈ out.2.2) →
    (∃ b, Eff.push b ∈ tr) ∨
    (PushFacts env req ∧
      ∀ res, out.2.1 = Except.ok res →
        res.success = true ∧ res.status = JobStatus.completed ∧
          res.pushed = pushedFlag env)

/-! ## C1 — fail-fast step execution -/

/-- C1: refuted on the code (code bug).  The claim — and the comment
`# Stop on first failure for MVP` in execute_plan — say that once a step's
result has status failed no later step is attempted and no later FileEdit
or commit is produced.  Under env1, step 1 of plan1 fails (its only
candidate fails validation), yet step 2 is still attempted, produces a
FileEdit, and produces commit "sha1": the `break` sits in an `except`
branch that can never run because execute_step catches every exception and
returns a failed result instead of raising. -/
theorem C1_step2_runs_after_step1_fails :
    ((execute_plan env1 plan1).1.steps_completed.map (fun r => r.status) =
      [AgentStepStatus.failed, AgentStepStatus.completed]) ∧
    ((execute_plan env1 plan1).1.steps_completed.map (fun r => r.edits.length) = [0, 1]) ∧
    (execute_plan env1 plan1).1.commits_created = ["sha1"] ∧
    (execute_plan env1 plan1).1.success = false := by decide

/-! ## C2 — result iff terminal -/

/-- C2 counterexample: a job cancelled through cancel_job has the terminal
status cancelled and still no JobResult, so "result exists iff status is
terminal" fails in the cancelled case. -/
theorem C2_counterexample :
    ((findJob (cancel_job state1 "j1").1 "j1").map
      (fun j => (j.progress.status, j.result)) =
        some (JobStatus.cancelled, none)) ∧
    JobStatus.cancelled.isTerminal = true := by decide

/-! ## C3 — error_stage classification -/

/-- C3 counterexample: when VM provisioning raises, the status current
immediately before the failure is initializing_vm (see the progress
trace), but the recorded error_stage is the renamed label
"vm_initialization", not the JobStatus value "initializing_vm". -/
theorem C3_counterexample :
    ((execute_job envVmFail state1 "j1").2.1.toOption.map (fun r => r.error_stage) =
      some (some "vm_initialization")) ∧
    progressOf (execute_job envVmFail state1 "j1").2.2 =
      [JobStatus.initializing_vm, JobStatus.failed] ∧
    "vm_initialization" ≠ JobStatus.initializing_vm.value := by decide

/-! ## C4 — request validation -/

/-- C4 counterexample: a request carrying both an existing-repository url
and a new-repository configuration passes validation and create_job
registers a pending Job for it, so such requests are not rejected. -/
theorem C4_counterexample :
    reqBoth.repo_url ≠ none ∧ reqBoth.new_repo_config ≠ none ∧
    (JobRequest.model_post_init reqBoth).toOption = some reqBoth ∧
    ((findJob (create_job emptyState "j2" reqBoth).1 "j2").map
      (fun j => j.progress.status) = some JobStatus.pending) := by decide

/-! ## C9 — the plan is mutated in place -/

/-- C9 counterexample: executing plan0 under env0 rewrites the plan's own
entry from path "src/utils" to "src/utils/main.py" and downgrades its
intent from create to modify, so the plan is not treated as read-only. -/
theorem C9_counterexample :
    plan0.files_to_change.map (fun f => (f.path, f.intent)) =
      [("src/utils", FileIntent.create)] ∧
    (execute_plan env0 plan0).2.map (fun f => (f.path, f.intent)) =
      [("src/utils/main.py", FileIntent.modify)] := by decide

/-! ## Helper lemmas about the per-file loop -/

/-- The edits accumulated by the per-file loop are exactly the per-candidate
outcomes, in candidate order: the loop never aborts early, so one file's
failure leaves the others' processing untouched. -/
theorem foldl_stepFold_edits (env : AgentEnv) (i : Nat)
    (l : List (Nat × (Nat × FileChange))) (acc : StepAcc) :
    (l.foldl (stepFold env i) acc).edits =
      acc.edits ++ l.filterMap (fun jc => (processFile jc.2.2 (env.file i jc.1)).edit) := by
  induction l generalizing acc with
  | nil => simp
  | cons x xs ih =>
    rw [List.foldl_cons, ih]
    cases h : (processFile x.2.2 (env.file i x.1)).edit <;>
      simp [stepFold, h, List.filterMap_cons]

/-- Any edit processFile emits carries line deltas computed from the
old/new total line counts alone. -/
theorem processFile_edit_spec (fc : FileChange) (o : FileOutcome) (e : FileEdit)
    (h : (processFile fc o).edit = some e) :
    e.lines_added = max 0 (pyLineCount e.new_content - pyOptLineCount e.original_content) ∧
    e.lines_removed = max 0 (pyOptLineCount e.original_content - pyLineCount e.new_content) := by
  unfold processFile at h
  rcases hg : o.gen with _ | ⟨c, t⟩ <;> simp only [hg] at h
  · exact absurd h (by simp)
  · by_cases hv : o.validation.success = false <;> simp only [hv, if_true, if_false] at h
    · exact absurd h (by simp)
    · by_cases hw : o.writeOk <;> simp only [hw, if_true, if_false] at h
      · have he := (Option.some_inj.mp h).symm
        subst he
        cases hx : o.fileExists <;>
          simp [hx, pyOptLineCount, pyOldLineCount, if_pos rfl]
      · exact absurd h (by simp)

/-- The edits of an executed step, as a filterMap over its candidates. -/
theorem execute_step_edits (env : AgentEnv) (i : Nat) (step : PlanStep)
    (files : List FileChange) :
    (execute_step env i step files).1.edits =
      (get_files_for_step step.step_number files).2.enum.filterMap
        (fun jc => (processFile jc.2.2 (env.file i jc.1)).edit) := by
  unfold execute_step
  by_cases h : (get_files_for_step step.step_number files).2.isEmpty
  · have : (get_files_for_step step.step_number files).2 = [] := by
      simpa [List.isEmpty_iff] using h
    simp [h, this]
  · simp only [h, if_neg, Bool.false_eq_true, not_false_iff, if_false]
    simpa using foldl_stepFold_edits env i
      (get_files_for_step step.step_number files).2.enum
      ⟨(get_files_for_step step.step_number files).1, [], [], 0⟩

/-! ## C10 — line deltas from total counts only -/

/-- C10: confirmed.  Every FileEdit the step executor records has
lines_added = max(0, new_lines - old_lines) and
lines_removed = max(0, old_lines - new_lines), where both numbers are the
total line counts of the new and original content (0 for a missing or
empty original); consequently at most one of the two is nonzero, and a
same-length rewrite records zero for both. -/
theorem C10_line_deltas (env : AgentEnv) (i : Nat) (step : PlanStep)
    (files : List FileChange) (e : FileEdit)
    (he : e ∈ (execute_step env i step files).1.edits) :
    e.lines_added = max 0 (pyLineCount e.new_content - pyOptLineCount e.original_content) ∧
    e.lines_removed = max 0 (pyOptLineCount e.original_content - pyLineCount e.new_content) ∧
    (e.lines_added = 0 ∨ e.lines_removed = 0) := by
  rw [execute_step_edits] at he
  rcases List.mem_filterMap.mp he with ⟨jc, _, hjc⟩
  obtain ⟨h1, h2⟩ := processFile_edit_spec _ _ _ hjc
  refine ⟨h1, h2, ?_⟩
  rcases le_total (pyLineCount e.new_content) (pyOptLineCount e.original_content) with h | h
  · exact Or.inl (by rw [h1]; exact max_eq_left (by omega))
  · exact Or.inr (by rw [h2]; exact max_eq_left (by omega))

/-- Witness for C10: the edit produced by step 2 of plan1 under env1. -/
theorem C10_line_deltas_witness :
    (0 : Int) = max 0 (pyLineCount "new2" - pyOptLineCount (some "old")) ∧
    (0 : Int) = max 0 (pyOptLineCount (some "old") - pyLineCount "new2") ∧
    ((0 : Int) = 0 ∨ (0 : Int) = 0) :=
  C10_line_deltas env1 1 ⟨2, "two", "d2"⟩ plan1.files_to_change
    ⟨"a.py", some "old", "new2", EditType.modify, 0, 0⟩ (by decide)

/-! ## C7 — per-file independence and step status -/

/-- C7: confirmed.  The edits of a step are a filterMap over its candidate
list — each candidate is processed independently of its siblings'
failures — and the step status is skipped exactly when there were no
candidates, completed exactly when at least one edit was produced, and
failed exactly when candidates existed but produced no edit. -/
theorem C7_step_outcome (env : AgentEnv) (i : Nat) (step : PlanStep)
    (files : List FileChange) :
    ((execute_step env i step files).1.edits =
      (get_files_for_step step.step_number files).2.enum.filterMap
        (fun jc => (processFile jc.2.2 (env.file i jc.1)).edit)) ∧
    ((get_files_for_step step.step_number files).2 = [] →
      (execute_step env i step files).1.status = AgentStepStatus.skipped ∧
      (execute_step env i step files).1.edits = []) ∧
    ((get_files_for_step step.step_number files).2 ≠ [] →
      (((execute_step env i step files).1.status = AgentStepStatus.completed ↔
          (execute_step env i step files).1.edits ≠ []) ∧
       ((execute_step env i step files).1.status = AgentStepStatus.failed ↔
          (execute_step env i step files).1.edits = []))) := by
  refine ⟨execute_step_edits env i step files, ?_, ?_⟩
  · intro h
    constructor <;> simp [execute_step, h]
  · intro h
    have hne : (get_files_for_step step.step_number files).2.isEmpty = false := by
      simpa [List.isEmpty_iff] using h
    by_cases he : ((get_files_for_step step.step_number files).2.enum.foldl
        (stepFold env i)
        ⟨(get_files_for_step step.step_number files).1, [], [], 0⟩).edits = []
    · constructor <;> simp [execute_step, hne, he]
    · constructor <;> simp [execute_step, hne, he]

/-- Witness for C7: step 1 of plan1 under env1 has one candidate, no edit,
and is accordingly failed and not completed. -/
theorem C7_step_outcome_witness :
    ((execute_step env1 0 ⟨1, "one", "d1"⟩ plan1.files_to_change).1.status =
        AgentStepStatus.completed ↔ False) ∧
    ((execute_step env1 0 ⟨1, "one", "d1"⟩ plan1.files_to_change).1.status =
        AgentStepStatus.failed ↔ True) := by
  have h := (C7_step_outcome env1 0 ⟨1, "one", "d1"⟩ plan1.files_to_change).2.2
    (by decide)
  constructor
  · rw [h.1]
    simp only [iff_false]
    decide
  · rw [h.2]
    simp only [iff_true]
    decide

/-! ## Helper lemmas about the stable sort and candidate selection -/

theorem mem_insertByKey {α : Type} (k : α → Int) (a x : α) (l : List α) :
    x ∈ insertByKey k a l ↔ x = a ∨ x ∈ l := by
  induction l with
  | nil => simp [insertByKey]
  | cons b t ih =>
    by_cases h : k b < k a <;> simp [insertByKey, h, ih] <;> tauto

theorem mem_sortByKey {α : Type} (k : α → Int) (l : List α) (x : α) :
    x ∈ sortByKey k l ↔ x ∈ l := by
  induction l with
  | nil => simp [sortByKey]
  | cons b t ih => simp [sortByKey, mem_insertByKey, ih]

theorem pairwise_insertByKey {α : Type} (k : α → Int) (a : α) (l : List α)
    (h : l.Pairwise (fun x y => k x ≤ k y)) :
    (insertByKey k a l).Pairwise (fun x y => k x ≤ k y) := by
  induction l with
  | nil => simp [insertByKey]
  | cons b t ih =>
    rcases List.pairwise_cons.mp h with ⟨hb, ht⟩
    by_cases hlt : k b < k a
    · simp only [insertByKey, if_pos hlt]
      refine List.pairwise_cons.mpr ⟨?_, ih ht⟩
      intro y hy
      rcases (mem_insertByKey k a y t).mp hy with rfl | hyt
      · exact le_of_lt hlt
      · exact hb y hyt
    · simp only [insertByKey, if_neg hlt]
      refine List.pairwise_cons.mpr ⟨?_, h⟩
      intro y hy
      rcases List.mem_cons.mp hy with rfl | hyt
      · exact le_of_not_lt hlt
      · exact le_trans (le_of_not_lt hlt) (hb y hyt)

theorem sortByKey_sorted {α : Type} (k : α → Int) (l : List α) :
    (sortByKey k l).Pairwise (fun x y => k x ≤ k y) := by
  induction l with
  | nil => simp [sortByKey]
  | cons b t ih => exact pairwise_insertByKey k b _ ih

theorem insertByKey_map {α β : Type} (g : α → β) (k : α → Int) (k2 : β → Int)
    (hk : ∀ a, k2 (g a) = k a) (a : α) (l : List α) :
    insertByKey k2 (g a) (l.map g) = (insertByKey k a l).map g := by
  induction l with
  | nil => simp [insertByKey]
  | cons b t ih =>
    by_cases h : k b < k a
    · simp [insertByKey, hk, h, ih]
    · simp [insertByKey, hk, h]

theorem sortByKey_map {α β : Type} (g : α → β) (k : α → Int) (k2 : β → Int)
    (hk : ∀ a, k2 (g a) = k a) (l : List α) :
    sortByKey k2 (l.map g) = (sortByKey k l).map g := by
  induction l with
  | nil => simp [sortByKey]
  | cons b t ih => simp [sortByKey, ih, insertByKey_map g k k2 hk]

theorem filter_map_comm {α β : Type} (g : α → β) (p : β → Bool) (l : List α) :
    (l.map g).filter p = (l.filter (fun a => p (g a))).map g := by
  induction l with
  | nil => simp
  | cons b t ih =>
    by_cases h : p (g b) <;> simp [h, ih]

theorem enumFrom_map_pair {α β : Type} (g : α → β) (n : Nat) (l : List α) :
    (l.map g).enumFrom n = (l.enumFrom n).map (fun p => (p.1, g p.2)) := by
  induction l generalizing n with
  | nil => simp
  | cons b t ih => simp [List.enumFrom, ih]

theorem enumFrom_map_snd {α : Type} (n : Nat) (l : List α) :
    (l.enumFrom n).map Prod.snd = l := by
  induction l generalizing n with
  | nil => simp
  | cons b t ih => simp [List.enumFrom, ih]

theorem condFix_priority (n : Int) (f : FileChange) :
    (condFix n f).priority = f.priority := by
  unfold condFix fixFile
  by_cases h1 : f.priority ≤ n <;> by_cases h2 : isDirPath f.path <;> simp [h1, h2]

theorem enum_map_pair {α β : Type} (g : α → β) (l : List α) :
    (l.map g).enum = l.enum.map (fun p => (p.1, g p.2)) := by
  simpa [List.enum] using enumFrom_map_pair g 0 l

theorem enum_map_snd {α : Type} (l : List α) : l.enum.map Prod.snd = l := by
  simpa [List.enum] using enumFrom_map_snd 0 l

theorem map_take_comm {α β : Type} (f : α → β) (m : Nat) (l : List α) :
    (l.take m).map f = (l.map f).take m := by
  induction l generalizing m with
  | nil => simp
  | cons b t ih => cases m <;> simp [ih]

/-! ## C8 — candidate selection refines the spec's description -/

/-- C8: confirmed.  Candidate selection is a pure (hence deterministic)
function of the plan, and it computes exactly what the spec describes
(candidateSpec is written from the spec's words): the FileChange entries
whose priority is at most the step number, sorted stably by priority
ascending, truncated to at most 3, every selected directory-looking path
rewritten to a concrete file path.  The code applies the rewrite before
sorting and the spec after truncating; the results coincide because the
rewrite preserves priority.  The selected list is sorted by priority
ascending and has at most 3 entries. -/
theorem C8_candidate_selection (n : Int) (files : List FileChange) :
    ((get_files_for_step n files).2.map Prod.snd = candidateSpec n files) ∧
    ((get_files_for_step n files).2.map Prod.snd).Pairwise
      (fun a b => a.priority ≤ b.priority) ∧
    (get_files_for_step n files).2.length ≤ 3 := by
  have inner : ((sortByKey (fun p : Nat × FileChange => p.2.priority)
        (files.enum.filter (fun p => decide (p.2.priority ≤ n)))).take 3).map Prod.snd =
      (sortByKey (fun f : FileChange => f.priority)
        (files.filter (fun f => decide (f.priority ≤ n)))).take 3 := by
    rw [map_take_comm]
    have h1 : (sortByKey (fun p : Nat × FileChange => p.2.priority)
        (files.enum.filter (fun p => decide (p.2.priority ≤ n)))).map Prod.snd =
        sortByKey (fun f : FileChange => f.priority)
          ((files.enum.filter (fun p => decide (p.2.priority ≤ n))).map Prod.snd) :=
      (sortByKey_map Prod.snd (fun p : Nat × FileChange => p.2.priority)
        (fun f : FileChange => f.priority) (fun p => rfl) _).symm
    rw [h1]
    have h2 : (files.enum.filter (fun p => decide (p.2.priority ≤ n))).map Prod.snd =
        (files.enum.map Prod.snd).filter (fun f => decide (f.priority ≤ n)) :=
      (filter_map_comm Prod.snd (fun f : FileChange => decide (f.priority ≤ n))
        files.enum).symm
    rw [h2, enum_map_snd]
  have key : (get_files_for_step n files).2.map Prod.snd =
      ((sortByKey (fun f : FileChange => f.priority)
        (files.filter (fun f => decide (f.priority ≤ n)))).take 3).map (condFix n) := by
    simp only [get_files_for_step]
    rw [enum_map_pair (condFix n) files]
    have hf1 : (files.enum.map (fun p => (p.1, condFix n p.2))).filter
        (fun p => decide (p.2.priority ≤ n)) =
        (files.enum.filter (fun p => decide ((condFix n p.2).priority ≤ n))).map
          (fun p => (p.1, condFix n p.2)) :=
      filter_map_comm _ _ _
    rw [hf1]
    simp only [condFix_priority]
    have hf2 : sortByKey (fun p : Nat × FileChange => p.2.priority)
        ((files.enum.filter (fun p => decide (p.2.priority ≤ n))).map
          (fun p => (p.1, condFix n p.2))) =
        (sortByKey (fun p : Nat × FileChange => p.2.priority)
          (files.enum.filter (fun p => decide (p.2.priority ≤ n)))).map
            (fun p => (p.1, condFix n p.2)) :=
      sortByKey_map _ (fun p : Nat × FileChange => p.2.priority)
        (fun p : Nat × FileChange => p.2.priority) (fun p => condFix_priority n p.2) _
    rw [hf2]
    rw [← map_take_comm]
    rw [List.map_map]
    rw [show (Prod.snd ∘ fun p : Nat × FileChange => (p.1, condFix n p.2)) =
      condFix n ∘ Prod.snd from rfl]
    rw [← List.map_map]
    rw [inner]
  have hmemfix : ∀ f ∈ (sortByKey (fun f : FileChange => f.priority)
      (files.filter (fun f => decide (f.priority ≤ n)))).take 3,
      condFix n f = fixFile f := by
    intro f hf
    have hf3 : f ∈ files.filter (fun f => decide (f.priority ≤ n)) :=
      (mem_sortByKey _ _ f).mp (List.take_subset 3 _ hf)
    have hp : f.priority ≤ n := of_decide_eq_true (List.mem_filter.mp hf3).2
    unfold condFix
    rw [if_pos hp]
  refine ⟨?_, ?_, ?_⟩
  · rw [key]
    unfold candidateSpec
    exact List.map_congr_left hmemfix
  · rw [key, List.pairwise_map]
    have hs := sortByKey_sorted (fun f : FileChange => f.priority)
      (files.filter (fun f => decide (f.priority ≤ n)))
    have ht := hs.sublist (List.take_sublist 3 _)
    refine ht.imp ?_
    intro a b hab
    simpa [condFix_priority] using hab
  · have hlen : (get_files_for_step n files).2 =
        (sortByKey (fun p : Nat × FileChange => p.2.priority)
          (((files.map (condFix n)).enum).filter (fun p => decide (p.2.priority ≤ n)))).take 3 := by
      simp only [get_files_for_step]
    rw [hlen]
    exact List.length_take_le 3 _

/-! ## Helper lemmas about the in-place plan mutation -/

theorem fcStep_fields (f g : FileChange) (h : fcStep f g) :
    g.priority = f.priority ∧ g.rationale = f.rationale := by
  rcases h with ⟨_, rfl⟩ | ⟨_, rfl⟩ <;> exact ⟨rfl, rfl⟩

theorem fcEvolves_fields (f g : FileChange) (h : fcEvolves f g) :
    g.priority = f.priority ∧ g.rationale = f.rationale := by
  induction h with
  | refl => exact ⟨rfl, rfl⟩
  | tail h1 h2 ih =>
    obtain ⟨hp, hr⟩ := fcStep_fields _ _ h2
    exact ⟨hp.trans ih.1, hr.trans ih.2⟩

theorem fixFile_evolves (f : FileChange) : fcEvolves f (fixFile f) := by
  unfold fixFile
  by_cases h : isDirPath f.path
  · rw [if_pos h]
    exact Relation.ReflTransGen.single (Or.inl ⟨h, rfl⟩)
  · rw [if_neg h]
    exact Relation.ReflTransGen.refl

theorem condFix_evolves (n : Int) (f : FileChange) : fcEvolves f (condFix n f) := by
  unfold condFix
  by_cases h : f.priority ≤ n
  · rw [if_pos h]
    exact fixFile_evolves f
  · rw [if_neg h]
    exact Relation.ReflTransGen.refl

theorem processFile_fc (fc : FileChange) (o : FileOutcome) :
    (processFile fc o).fc =
      if fc.intent = FileIntent.create ∧ o.fileExists = true
      then { fc with intent := FileIntent.modify } else fc := by
  unfold processFile
  rcases hg : o.gen with _ | ⟨c, t⟩ <;> simp only [hg]
  by_cases hv : o.validation.success = false <;> simp only [hv, if_true, if_false]
  by_cases hw : o.writeOk <;> simp [hw]

theorem processFile_fc_evolves (fc : FileChange) (o : FileOutcome) :
    fcEvolves fc (processFile fc o).fc := by
  rw [processFile_fc]
  by_cases h : fc.intent = FileIntent.create ∧ o.fileExists = true
  · rw [if_pos h]
    exact Relation.ReflTransGen.single (Or.inr ⟨h.1, rfl⟩)
  · rw [if_neg h]
    exact Relation.ReflTransGen.refl

theorem forall₂_refl_fcEvolves (l : List FileChange) : List.Forall₂ fcEvolves l l := by
  induction l with
  | nil => exact List.Forall₂.nil
  | cons a t ih => exact List.Forall₂.cons Relation.ReflTransGen.refl ih

theorem forall₂_map_right {α : Type} {R : α → α → Prop} (g : α → α)
    (hg : ∀ a b, R a b → R a (g b)) {l₁ l₂ : List α}
    (h : List.Forall₂ R l₁ l₂) : List.Forall₂ R l₁ (l₂.map g) := by
  induction h with
  | nil => exact List.Forall₂.nil
  | cons hab htl ih =>
    rw [List.map_cons]
    exact List.Forall₂.cons (hg _ _ hab) ih

theorem forall₂_get {α : Type} {R : α → α → Prop} {l₁ l₂ : List α}
    (h : List.Forall₂ R l₁ l₂) :
    ∀ (i : Nat) (a b : α), l₁[i]? = some a → l₂[i]? = some b → R a b := by
  induction h with
  | nil => intro i a b ha _; simp at ha
  | cons hab htl ih =>
    intro i a b ha hb
    cases i with
    | zero =>
      simp only [List.getElem?_cons_zero, Option.some_inj] at ha hb
      rw [← ha, ← hb]
      exact hab
    | succ j =>
      simp only [List.getElem?_cons_succ] at ha hb
      exact ih j a b ha hb

theorem forall₂_set {α : Type} {R : α → α → Prop} {l₁ l₂ : List α}
    (h : List.Forall₂ R l₁ l₂) :
    ∀ (i : Nat) (v : α), (∀ a, l₁[i]? = some a → R a v) →
      List.Forall₂ R l₁ (l₂.set i v) := by
  induction h with
  | nil => intro i v _; exact List.Forall₂.nil
  | cons hab htl ih =>
    intro i v hv
    cases i with
    | zero =>
      rw [List.set_cons_zero]
      exact List.Forall₂.cons (hv _ (by simp)) htl
    | succ j =>
      rw [List.set_cons_succ]
      exact List.Forall₂.cons hab (ih j v (fun a ha => hv a (by simpa using ha)))

theorem mem_of_getElem_opt {α : Type} : ∀ (l : List α) (i : Nat) (a : α),
    l[i]? = some a → a ∈ l
  | [], i, a, h => by simp at h
  | b :: t, 0, a, h => by
    simp only [List.getElem?_cons_zero, Option.some_inj] at h
    rw [← h]
    exact List.mem_cons_self b t
  | b :: t, i + 1, a, h => by
    simp only [List.getElem?_cons_succ] at h
    exact List.mem_cons_of_mem b (mem_of_getElem_opt t i a h)

theorem cands_getElem (n : Int) (files : List FileChange) (i : Nat) (fc : FileChange)
    (h : (i, fc) ∈ (get_files_for_step n files).2) :
    (files.map (condFix n))[i]? = some fc := by
  simp only [get_files_for_step] at h
  have h1 : (i, fc) ∈ (files.map (condFix n)).enum :=
    (List.mem_filter.mp ((mem_sortByKey _ _ _).mp (List.take_subset 3 _ h))).1
  exact List.mem_enum_iff_getElem?.mp h1

theorem foldl_stepFold_store (env : AgentEnv) (si : Nat) (base files2 : List FileChange)
    (hb : List.Forall₂ fcEvolves base files2) :
    ∀ (l : List (Nat × (Nat × FileChange))) (acc : StepAcc),
      (∀ jc ∈ l, files2[jc.2.1]? = some jc.2.2) →
      List.Forall₂ fcEvolves base acc.store →
      List.Forall₂ fcEvolves base ((l.foldl (stepFold env si) acc)).store := by
  intro l
  induction l with
  | nil => intro acc _ hacc; exact hacc
  | cons x xs ih =>
    intro acc hmem hacc
    rw [List.foldl_cons]
    refine ih _ (fun jc hjc => hmem jc (List.mem_cons_of_mem x hjc)) ?_
    show List.Forall₂ fcEvolves base
      (acc.store.set x.2.1 (processFile x.2.2 (env.file si x.1)).fc)
    refine forall₂_set hacc x.2.1 _ ?_
    intro a ha
    have h2 : files2[x.2.1]? = some x.2.2 := hmem x (List.mem_cons_self x xs)
    exact (forall₂_get hb x.2.1 a x.2.2 ha h2).trans (processFile_fc_evolves _ _)

theorem execute_step_store (env : AgentEnv) (si : Nat) (step : PlanStep)
    (base files : List FileChange) (h : List.Forall₂ fcEvolves base files) :
    List.Forall₂ fcEvolves base (execute_step env si step files).2 := by
  have hf2 : List.Forall₂ fcEvolves base (files.map (condFix step.step_number)) :=
    forall₂_map_right (condFix step.step_number)
      (fun a b hab => hab.trans (condFix_evolves step.step_number b)) h
  unfold execute_step
  by_cases hc : (get_files_for_step step.step_number files).2.isEmpty
  · simp only [hc, if_true]
    exact hf2
  · simp only [hc, Bool.false_eq_true, if_false]
    refine foldl_stepFold_store env si base (files.map (condFix step.step_number)) hf2
      _ _ ?_ hf2
    intro jc hjc
    have hmem : jc.2 ∈ (get_files_for_step step.step_number files).2 := by
      have h1 := List.mem_enum_iff_getElem?.mp hjc
      exact mem_of_getElem_opt _ _ _ h1
    exact cands_getElem step.step_number files jc.2.1 jc.2.2 hmem

theorem planFold_store (env : AgentEnv) (acc : PlanAcc) (x : Nat × PlanStep) :
    (planFold env acc x).store = (execute_step env x.1 x.2 acc.store).2 := by
  unfold planFold
  dsimp only
  split
  · split <;> rfl
  · rfl

theorem execute_plan_store (env : AgentEnv) (plan : ImplementationPlan) :
    List.Forall₂ fcEvolves plan.files_to_change (execute_plan env plan).2 := by
  have main : ∀ (l : List (Nat × PlanStep)) (acc : PlanAcc),
      List.Forall₂ fcEvolves plan.files_to_change acc.store →
      List.Forall₂ fcEvolves plan.files_to_change ((l.foldl (planFold env) acc)).store := by
    intro l
    induction l with
    | nil => intro acc hacc; exact hacc
    | cons x xs ih =>
      intro acc hacc
      rw [List.foldl_cons]
      refine ih _ ?_
      rw [planFold_store]
      exact execute_step_store env x.1 x.2 plan.files_to_change acc.store hacc
  have h0 := forall₂_refl_fcEvolves plan.files_to_change
  simpa [execute_plan] using main plan.steps.enum ⟨plan.files_to_change, [], [], 0⟩ h0

/-! ## C9 — the amended frame property -/

/-- C9: corrected (see C9_counterexample: the plan is mutated in place, so
the claim as stated is false).  Amended claim, proved here: after
execute_plan, every entry of the plan's files_to_change is obtained from
its original value by a chain of exactly the two in-place rewrites the
executor performs — the directory-path fix and the create-to-modify
intent downgrade — and in particular its priority and rationale are never
changed. -/
theorem C9_plan_mutation_bound (env : AgentEnv) (plan : ImplementationPlan) :
    List.Forall₂ fcEvolves plan.files_to_change (execute_plan env plan).2 ∧
    (∀ f g, fcEvolves f g → g.priority = f.priority ∧ g.rationale = f.rationale) :=
  ⟨execute_plan_store env plan, fun f g h => fcEvolves_fields f g h⟩

/-- Witness for C9's amended theorem, applied to plan0/env0 and a
reflexive evolution chain. -/
theorem C9_plan_mutation_bound_witness :
    (1 : Int) = (1 : Int) ∧ "r" = "r" :=
  (C9_plan_mutation_bound env0 plan0).2
    ⟨"a.py", FileIntent.modify, "r", 1⟩ ⟨"a.py", FileIntent.modify, "r", 1⟩
    Relation.ReflTransGen.refl

/-! ## Registry lemmas -/

theorem findJob_setJob_self (s : OrchState) (id : String) (j : Job) :
    findJob (setJob s id j) id = some j := by
  simp [findJob, setJob]

theorem findJob_setJob_ne (s : OrchState) (id id2 : String) (j : Job) (h : id2 ≠ id) :
    findJob (setJob s id j) id2 = findJob s id2 := by
  simp [findJob, setJob, h]

theorem update_progress_self (s : OrchState) (id : String) (st : JobStatus)
    (pct : Int) (msg : String) (j : Job) (h : findJob s id = some j) :
    findJob (update_progress s id st pct msg) id =
      some { j with progress :=
        { status := st, current_step := some st.value
          progress_percentage := pct, message := some msg } } := by
  unfold update_progress
  rw [h]
  exact findJob_setJob_self _ _ _

theorem update_progress_ne (s : OrchState) (id id2 : String) (st : JobStatus)
    (pct : Int) (msg : String) (h : id2 ≠ id) :
    findJob (update_progress s id st pct msg) id2 = findJob s id2 := by
  unfold update_progress
  cases hf : findJob s id
  · rfl
  · exact findJob_setJob_ne _ _ _ _ h

theorem setJobResult_self (s : OrchState) (id : String) (r : JobResult) (j : Job)
    (h : findJob s id = some j) :
    findJob (setJobResult s id r) id = some { j with result := some r } := by
  unfold setJobResult
  rw [h]
  exact findJob_setJob_self _ _ _

theorem setJobResult_ne (s : OrchState) (id id2 : String) (r : JobResult) (h : id2 ≠ id) :
    findJob (setJobResult s id r) id2 = findJob s id2 := by
  unfold setJobResult
  cases hf : findJob s id
  · rfl
  · exact findJob_setJob_ne _ _ _ _ h

theorem finallyDestroy_parts (s : OrchState) (r : Except String JobResult)
    (tr : List Eff) (vm : Option String) :
    (finallyDestroy s r tr vm).1 = s ∧ (finallyDestroy s r tr vm).2.1 = r := by
  cases vm <;> exact ⟨rfl, rfl⟩

/-! ## Stage postconditions -/

theorem writeTerminal_find (s : OrchState) (id : String) (st : JobStatus)
    (pct : Int) (msg : String) (r : JobResult) (j : Job) (h : findJob s id = some j) :
    findJob (setJobResult (update_progress s id st pct msg) id r) id =
      some { j with
        progress := { status := st, current_step := some st.value
                      progress_percentage := pct, message := some msg }
        result := some r } := by
  have h1 := update_progress_self s id st pct msg j h
  have h2 := setJobResult_self _ id r _ h1
  simpa using h2

theorem writeTerminal_ne (s : OrchState) (id id2 : String) (st : JobStatus)
    (pct : Int) (msg : String) (r : JobResult) (h : id2 ≠ id) :
    findJob (setJobResult (update_progress s id st pct msg) id r) id2 =
      findJob s id2 := by
  rw [setJobResult_ne _ _ _ _ h, update_progress_ne _ _ _ _ _ _ h]

theorem failStage_post (s : OrchState) (id : String) (tr : List Eff)
    (vm : Option String) (ru rp : Option String) (b : String) (cn : Bool)
    (msg : String) (j : Job) (h : findJob s id = some j) :
    StagePost s id (failStage s id tr vm ru rp b cn msg) := by
  unfold failStage
  dsimp only
  rcases vm with _ | sid <;>
    simp only [finallyDestroy] <;>
    exact ⟨_, _, rfl, Or.inr rfl, writeTerminal_find s id _ 0 _ _ j h, rfl, rfl,
      fun id2 hid => writeTerminal_ne s id id2 _ 0 _ _ hid⟩

theorem completeStage_post (env : OrchEnv) (s : OrchState) (id : String)
    (req : JobRequest) (tr : List Eff) (vm : String) (ru : Option String)
    (path b : String) (cn : Bool) (ar : AgentExecutionResult) (j : Job)
    (h : findJob s id = some j) :
    StagePost s id (completeStage env s id req tr vm ru path b cn ar) := by
  unfold completeStage
  dsimp only
  by_cases hp : (req.push_changes && !ar.commits_created.isEmpty) = true
  · simp only [hp, if_true, finallyDestroy]
    have h1 := update_progress_self s id JobStatus.pushing_changes 80
      ("Pushing changes to " ++ b ++ "...") j h
    exact ⟨_, _, rfl, Or.inl rfl, writeTerminal_find _ id _ 100 _ _ _ h1, rfl, rfl,
      fun id2 hid => by
        rw [writeTerminal_ne _ _ _ _ 100 _ _ hid,
          update_progress_ne _ _ _ _ _ _ hid]⟩
  · simp only [hp, if_false, finallyDestroy]
    exact ⟨_, _, rfl, Or.inl rfl, writeTerminal_find s id _ 100 _ _ j h, rfl, rfl,
      fun id2 hid => writeTerminal_ne s id id2 _ 100 _ _ hid⟩

theorem agentStage_post (env : OrchEnv) (s : OrchState) (id : String)
    (req : JobRequest) (tr : List Eff) (vm : String) (ru : Option String)
    (path b : String) (cn : Bool) (j : Job) (h : findJob s id = some j) :
    StagePost s id (agentStage env s id req tr vm ru path b cn) := by
  unfold agentStage
  dsimp only
  have h1 := update_progress_self s id JobStatus.executing_agent 40
    "Executing coding agent with LLM..." j h
  have hne : ∀ id2, id2 ≠ id →
      findJob (update_progress s id JobStatus.executing_agent 40
        "Executing coding agent with LLM...") id2 = findJob s id2 :=
    fun id2 hid => update_progress_ne _ _ _ _ _ _ hid
  rcases env.agent with e | ar
  · obtain ⟨res, j2, hr, hst, hf, hres, hpr, hfr⟩ := failStage_post _ id _ (some vm)
      ru (some path) b cn e _ h1
    exact ⟨res, j2, hr, hst, hf, hres, hpr, fun id2 hid => (hfr id2 hid).trans (hne id2 hid)⟩
  · by_cases hs : ar.success = true
    · simp only [hs, if_true]
      obtain ⟨res, j2, hr, hst, hf, hres, hpr, hfr⟩ := completeStage_post env _ id req _
        vm ru path b cn ar _ h1
      exact ⟨res, j2, hr, hst, hf, hres, hpr,
        fun id2 hid => (hfr id2 hid).trans (hne id2 hid)⟩
    · simp only [hs, if_false]
      obtain ⟨res, j2, hr, hst, hf, hres, hpr, hfr⟩ := failStage_post _ id _ (some vm)
        ru (some path) b cn _ _ h1
      exact ⟨res, j2, hr, hst, hf, hres, hpr,
        fun id2 hid => (hfr id2 hid).trans (hne id2 hid)⟩

theorem cloneStage_post (env : OrchEnv) (s : OrchState) (id : String)
    (req : JobRequest) (tr : List Eff) (vm : String) (ru : Option String)
    (b : String) (cn : Bool) (j : Job) (h : findJob s id = some j) :
    StagePost s id (cloneStage env s id req tr vm ru b cn) := by
  unfold cloneStage
  dsimp only
  have h1 := update_progress_self s id JobStatus.cloning_repo 25
    ("Cloning repository " ++ pyStr ru ++ "...") j h
  have hne : ∀ id2, id2 ≠ id →
      findJob (update_progress s id JobStatus.cloning_repo 25
        ("Cloning repository " ++ pyStr ru ++ "...")) id2 = findJob s id2 :=
    fun id2 hid => update_progress_ne _ _ _ _ _ _ hid
  rcases env.clone_repository with e | path
  · obtain ⟨res, j2, hr, hst, hf, hres, hpr, hfr⟩ := failStage_post _ id _ (some vm)
      ru none b cn e _ h1
    exact ⟨res, j2, hr, hst, hf, hres, hpr, fun id2 hid => (hfr id2 hid).trans (hne id2 hid)⟩
  · by_cases hb : (req.create_new_branch && !cn) = true
    · simp only [hb, if_true]
      obtain ⟨res, j2, hr, hst, hf, hres, hpr, hfr⟩ := agentStage_post env _ id req _
        vm ru path _ cn _ h1
      exact ⟨res, j2, hr, hst, hf, hres, hpr,
        fun id2 hid => (hfr id2 hid).trans (hne id2 hid)⟩
    · simp only [hb, if_false]
      obtain ⟨res, j2, hr, hst, hf, hres, hpr, hfr⟩ := agentStage_post env _ id req _
        vm ru path b cn _ h1
      exact ⟨res, j2, hr, hst, hf, hres, hpr,
        fun id2 hid => (hfr id2 hid).trans (hne id2 hid)⟩

theorem createRepoStage_post (env : OrchEnv) (s : OrchState) (id : String)
    (req : JobRequest) (tr : List Eff) (vm : String) (j : Job)
    (h : findJob s id = some j) :
    StagePost s id (createRepoStage env s id req tr vm) := by
  unfold createRepoStage
  dsimp only
  by_cases hc : req.create_new_repo = true
  · simp only [hc, if_true]
    rcases req.new_repo_config with _ | cfg
    · exact failStage_post s id tr (some vm) req.repo_url none req.branch false
        "AttributeError" j h
    · have h1 := update_progress_self s id JobStatus.creating_repo 15
        ("Creating repository: " ++ cfg.name ++ "...") j h
      have hne : ∀ id2, id2 ≠ id →
          findJob (update_progress s id JobStatus.creating_repo 15
            ("Creating repository: " ++ cfg.name ++ "...")) id2 = findJob s id2 :=
        fun id2 hid => update_progress_ne _ _ _ _ _ _ hid
      rcases env.create_repository with e | cr
      · obtain ⟨res, j2, hr, hst, hf, hres, hpr, hfr⟩ := failStage_post _ id _ (some vm)
          req.repo_url none req.branch false e _ h1
        exact ⟨res, j2, hr, hst, hf, hres, hpr,
          fun id2 hid => (hfr id2 hid).trans (hne id2 hid)⟩
      · by_cases hcr : cr.success = true
        · simp only [hcr, if_true]
          obtain ⟨res, j2, hr, hst, hf, hres, hpr, hfr⟩ := cloneStage_post env _ id req _
            vm (some cr.html_url) cr.default_branch true _ h1
          exact ⟨res, j2, hr, hst, hf, hres, hpr,
            fun id2 hid => (hfr id2 hid).trans (hne id2 hid)⟩
        · simp only [hcr, if_false]
          obtain ⟨res, j2, hr, hst, hf, hres, hpr, hfr⟩ := failStage_post _ id _ (some vm)
            req.repo_url none req.branch false _ _ h1
          exact ⟨res, j2, hr, hst, hf, hres, hpr,
            fun id2 hid => (hfr id2 hid).trans (hne id2 hid)⟩
  · simp only [hc, if_false]
    exact cloneStage_post env s id req tr vm req.repo_url req.branch false j h

theorem execute_job_notFound (env : OrchEnv) (s : OrchState) (id : String)
    (h : findJob s id = none) :
    execute_job env s id = (s, Except.error ("Job " ++ id ++ " not found"), []) := by
  unfold execute_job
  rw [h]

theorem execute_job_post (env : OrchEnv) (s : OrchState) (id : String) (j : Job)
    (h : findJob s id = some j) : StagePost s id (execute_job env s id) := by
  unfold execute_job
  rw [h]
  dsimp only
  have h1 := update_progress_self s id JobStatus.initializing_vm 10
    "Creating VM session..." j h
  have hne : ∀ id2, id2 ≠ id →
      findJob (update_progress s id JobStatus.initializing_vm 10
        "Creating VM session...") id2 = findJob s id2 :=
    fun id2 hid => update_progress_ne _ _ _ _ _ _ hid
  rcases env.create_session with e | vm
  · obtain ⟨res, j2, hr, hst, hf, hres, hpr, hfr⟩ := failStage_post _ id _ none
      j.request.repo_url none j.request.branch false e _ h1
    exact ⟨res, j2, hr, hst, hf, hres, hpr, fun id2 hid => (hfr id2 hid).trans (hne id2 hid)⟩
  · obtain ⟨res, j2, hr, hst, hf, hres, hpr, hfr⟩ := createRepoStage_post env _ id
      j.request _ vm _ h1
    exact ⟨res, j2, hr, hst, hf, hres, hpr, fun id2 hid => (hfr id2 hid).trans (hne id2 hid)⟩

/-! ## The registry invariant (C2, amended) -/

theorem create_job_inv (s : OrchState) (id : String) (req : JobRequest)
    (h : jobInv s) : jobInv (create_job s id req).1 := by
  intro id2 j2 hj2
  by_cases hid : id2 = id
  · subst hid
    rw [show (create_job s id2 req).1 = setJob s id2 _ from rfl,
      findJob_setJob_self] at hj2
    rw [← Option.some_inj.mp hj2]
    simp
  · rw [show (create_job s id req).1 = setJob s id _ from rfl,
      findJob_setJob_ne _ _ _ _ hid] at hj2
    exact h id2 j2 hj2

theorem cancel_job_inv (s : OrchState) (id : String) (h : jobInv s) :
    jobInv (cancel_job s id).1 := by
  intro id2 j2 hj2
  unfold cancel_job at hj2
  rcases hf : findJob s id with _ | j
  · rw [hf] at hj2
    exact h id2 j2 hj2
  · rw [hf] at hj2
    dsimp only at hj2
    by_cases ht : (j.progress.status = JobStatus.completed ∨
        j.progress.status = JobStatus.failed ∨ j.progress.status = JobStatus.cancelled)
    · rw [if_pos ht] at hj2
      exact h id2 j2 hj2
    · rw [if_neg ht] at hj2
      by_cases hid : id2 = id
      · subst hid
        rw [update_progress_self s id2 _ 0 _ j hf] at hj2
        rw [← Option.some_inj.mp hj2]
        have hres : j.result = none := by
          by_cases hr : j.result = none
          · exact hr
          · exact absurd ((h id2 j hf).mp hr) (fun hc => ht (Or.imp id Or.inl hc))
        simp [hres]
      · rw [update_progress_ne _ _ _ _ _ _ hid] at hj2
        exact h id2 j2 hj2

theorem execute_job_inv (env : OrchEnv) (s : OrchState) (id : String)
    (h : jobInv s) : jobInv (execute_job env s id).1 := by
  intro id2 j2 hj2
  rcases hf : findJob s id with _ | j
  · rw [execute_job_notFound env s id hf] at hj2
    exact h id2 j2 hj2
  · obtain ⟨res, j3, _, hst, hfind, hres, hpr, hfr⟩ := execute_job_post env s id j hf
    by_cases hid : id2 = id
    · subst hid
      rw [hfind] at hj2
      rw [← Option.some_inj.mp hj2]
      constructor
      · intro _
        rw [hpr]
        exact hst
      · intro _
        rw [hres]
        simp
    · rw [hfr id2 hid] at hj2
      exact h id2 j2 hj2

theorem reachable_inv (s : OrchState) (h : Reachable s) : jobInv s := by
  induction h with
  | empty => intro id j hj; simp [findJob, emptyState] at hj
  | create s id req _ ih => exact create_job_inv s id req ih
  | exec s env id _ ih => exact execute_job_inv env s id ih
  | cancel s id _ ih => exact cancel_job_inv s id ih

/-- C2: corrected (see C2_counterexample: a cancelled job is terminal with
no JobResult, so the claimed iff is false).  Amended claim, proved here:
in every registry state reachable through create_job / execute_job /
cancel_job, a job's result is non-empty exactly when its progress status
is completed or failed; a job cancelled via cancel_job stays without a
JobResult. -/
theorem C2_result_iff_completed_or_failed (s : OrchState) (h : Reachable s)
    (id : String) (j : Job) (hj : findJob s id = some j) :
    (j.result ≠ none ↔
      (j.progress.status = JobStatus.completed ∨
        j.progress.status = JobStatus.failed)) :=
  reachable_inv s h id j hj

/-- Witness for C2's amended theorem: the freshly created job "j1". -/
theorem C2_result_iff_completed_or_failed_witness :
    ((none : Option JobResult) ≠ none ↔
      (JobStatus.pending = JobStatus.completed ∨
        JobStatus.pending = JobStatus.failed)) :=
  C2_result_iff_completed_or_failed state1
    (Reachable.create emptyState "j1" reqExisting Reachable.empty) "j1" _ rfl

/-! ## Error-stage classification (C3, amended) -/

theorem error_stage_of_ne_failed (st : JobStatus) : error_stage_of st ≠ "failed" := by
  cases st <;> decide

theorem progressOf_append (t1 t2 : List Eff) :
    progressOf (t1 ++ t2) = progressOf t1 ++ progressOf t2 := by
  induction t1 with
  | nil => rfl
  | cons a t ih => cases a <;> simp [progressOf, ih]

theorem failStage_result (s : OrchState) (id : String) (tr : List Eff)
    (vm : Option String) (ru rp : Option String) (b : String) (cn : Bool)
    (msg : String) (j : Job) (h : findJob s id = some j) :
    (failStage s id tr vm ru rp b cn msg).2.1 = Except.ok
      { job_id := id, status := JobStatus.failed, success := false
        vm_session_id := vm, repo_url := ru, repo_path := rp
        branch_name := some b, created_new_repo := cn
        files_changed := 0, commits_created := 0, total_edits := 0, tokens_used := 0
        error_message := some msg
        error_stage := some (error_stage_of j.progress.status)
        commit_shas := [], pushed := false } := by
  unfold failStage
  dsimp only
  rw [h]
  cases vm <;> rfl

theorem failStage_trace (s : OrchState) (id : String) (tr : List Eff)
    (vm : Option String) (ru rp : Option String) (b : String) (cn : Bool)
    (msg : String) :
    (failStage s id tr vm ru rp b cn msg).2.2 =
      (tr ++ [Eff.progress JobStatus.failed]) ++
        (match vm with | none => [] | some sid => [Eff.destroy sid]) := by
  unfold failStage
  dsimp only
  cases vm <;> simp [finallyDestroy]

theorem completeStage_status (env : OrchEnv) (s : OrchState) (id : String)
    (req : JobRequest) (tr : List Eff) (vm : String) (ru : Option String)
    (path b : String) (cn : Bool) (ar : AgentExecutionResult) (res : JobResult)
    (h : (completeStage env s id req tr vm ru path b cn ar).2.1 = Except.ok res) :
    res.status = JobStatus.completed := by
  unfold completeStage at h
  dsimp only at h
  by_cases hp : (req.push_changes && !ar.commits_created.isEmpty) = true <;>
    simp only [hp, if_true, if_false, finallyDestroy] at h <;>
    (injection h with h2; rw [← h2])

theorem failStage_label (s : OrchState) (id : String) (tr : List Eff)
    (vm : Option String) (ru rp : Option String) (b : String) (cn : Bool)
    (msg : String) (j : Job) (pre0 : List JobStatus)
    (h : findJob s id = some j)
    (hlink : progressOf tr = pre0 ++ [j.progress.status]) :
    ∀ res, (failStage s id tr vm ru rp b cn msg).2.1 = Except.ok res →
      res.status = JobStatus.failed →
      ∃ pre st, progressOf (failStage s id tr vm ru rp b cn msg).2.2 =
          pre ++ [st, JobStatus.failed] ∧
        res.error_stage = some (error_stage_of st) := by
  intro res hres _
  rw [failStage_result s id tr vm ru rp b cn msg j h] at hres
  injection hres with hres
  refine ⟨pre0, j.progress.status, ?_, ?_⟩
  · rw [failStage_trace, progressOf_append, progressOf_append, hlink]
    cases vm <;> simp [progressOf]
  · rw [← hres]

theorem agentStage_label (env : OrchEnv) (s : OrchState) (id : String)
    (req : JobRequest) (tr : List Eff) (vm : String) (ru : Option String)
    (path b : String) (cn : Bool) (j : Job) (pre0 : List JobStatus)
    (h : findJob s id = some j)
    (hlink : progressOf tr = pre0 ++ [j.progress.status]) :
    ∀ res, (agentStage env s id req tr vm ru path b cn).2.1 = Except.ok res →
      res.status = JobStatus.failed →
      ∃ pre st, progressOf (agentStage env s id req tr vm ru path b cn).2.2 =
          pre ++ [st, JobStatus.failed] ∧
        res.error_stage = some (error_stage_of st) := by
  have h1 := update_progress_self s id JobStatus.executing_agent 40
    "Executing coding agent with LLM..." j h
  have hlink1 : progressOf (tr ++ [Eff.progress JobStatus.executing_agent, Eff.agent]) =
      (pre0 ++ [j.progress.status]) ++ [JobStatus.executing_agent] := by
    rw [progressOf_append, hlink]
    simp [progressOf]
  unfold agentStage
  dsimp only
  rcases env.agent with e | ar
  · exact failStage_label _ id _ (some vm) ru (some path) b cn e _
      ((pre0 ++ [j.progress.status])) h1 hlink1
  · by_cases hs : ar.success = true
    · simp only [hs, if_true]
      intro res hres hfail
      have hc := completeStage_status env _ id req _ vm ru path b cn ar res hres
      rw [hc] at hfail
      exact absurd hfail (by decide)
    · simp only [hs, if_false]
      exact failStage_label _ id _ (some vm) ru (some path) b cn _ _
        ((pre0 ++ [j.progress.status])) h1 hlink1

theorem cloneStage_label (env : OrchEnv) (s : OrchState) (id : String)
    (req : JobRequest) (tr : List Eff) (vm : String) (ru : Option String)
    (b : String) (cn : Bool) (j : Job) (pre0 : List JobStatus)
    (h : findJob s id = some j)
    (hlink : progressOf tr = pre0 ++ [j.progress.status]) :
    ∀ res, (cloneStage env s id req tr vm ru b cn).2.1 = Except.ok res →
      res.status = JobStatus.failed →
      ∃ pre st, progressOf (cloneStage env s id req tr vm ru b cn).2.2 =
          pre ++ [st, JobStatus.failed] ∧
        res.error_stage = some (error_stage_of st) := by
  have h1 := update_progress_self s id JobStatus.cloning_repo 25
    ("Cloning repository " ++ pyStr ru ++ "...") j h
  have hlink1 : progressOf (tr ++ [Eff.progress JobStatus.cloning_repo, Eff.clone]) =
      (pre0 ++ [j.progress.status]) ++ [JobStatus.cloning_repo] := by
    rw [progressOf_append, hlink]
    simp [progressOf]
  unfold cloneStage
  dsimp only
  rcases env.clone_repository with e | path
  · exact failStage_label _ id _ (some vm) ru none b cn e _
      (pre0 ++ [j.progress.status]) h1 hlink1
  · by_cases hb : (req.create_new_branch && !cn) = true
    · simp only [hb, if_true]
      have hlink2 : progressOf ((tr ++ [Eff.progress JobStatus.cloning_repo, Eff.clone]) ++
          [Eff.create_branch (match req.new_branch_name with
            | some n => if n = "" then "vibecoder-" ++ String.mk (id.data.take 8) else n
            | none => "vibecoder-" ++ String.mk (id.data.take 8))]) =
          (pre0 ++ [j.progress.status]) ++ [JobStatus.cloning_repo] := by
        rw [progressOf_append, hlink1]
        simp [progressOf]
      exact agentStage_label env _ id req _ vm ru path _ cn _
        (pre0 ++ [j.progress.status]) h1 hlink2
    · simp only [hb, if_false]
      exact agentStage_label env _ id req _ vm ru path b cn _
        (pre0 ++ [j.progress.status]) h1 hlink1

theorem createRepoStage_label (env : OrchEnv) (s : OrchState) (id : String)
    (req : JobRequest) (tr : List Eff) (vm : String) (j : Job) (pre0 : List JobStatus)
    (h : findJob s id = some j)
    (hlink : progressOf tr = pre0 ++ [j.progress.status]) :
    ∀ res, (createRepoStage env s id req tr vm).2.1 = Except.ok res →
      res.status = JobStatus.failed →
      ∃ pre st, progressOf (createRepoStage env s id req tr vm).2.2 =
          pre ++ [st, JobStatus.failed] ∧
        res.error_stage = some (error_stage_of st) := by
  unfold createRepoStage
  dsimp only
  by_cases hc : req.create_new_repo = true
  · simp only [hc, if_true]
    rcases req.new_repo_config with _ | cfg
    · exact failStage_label s id tr (some vm) req.repo_url none req.branch false
        "AttributeError" j pre0 h hlink
    · have h1 := update_progress_self s id JobStatus.creating_repo 15
        ("Creating repository: " ++ cfg.name ++ "...") j h
      have hlink1 : progressOf (tr ++
          [Eff.progress JobStatus.creating_repo, Eff.create_repository]) =
          (pre0 ++ [j.progress.status]) ++ [JobStatus.creating_repo] := by
        rw [progressOf_append, hlink]
        simp [progressOf]
      rcases env.create_repository with e | cr
      · exact failStage_label _ id _ (some vm) req.repo_url none req.branch false e _
          (pre0 ++ [j.progress.status]) h1 hlink1
      · by_cases hcr : cr.success = true
        · simp only [hcr, if_true]
          exact cloneStage_label env _ id req _ vm (some cr.html_url) cr.default_branch
            true _ (pre0 ++ [j.progress.status]) h1 hlink1
        · simp only [hcr, if_false]
          exact failStage_label _ id _ (some vm) req.repo_url none req.branch false _ _
            (pre0 ++ [j.progress.status]) h1 hlink1
  · simp only [hc, if_false]
    exact cloneStage_label env s id req tr vm req.repo_url req.branch false j pre0 h hlink

/-- C3: corrected (see C3_counterexample: error_stage is a renamed label,
not the JobStatus value).  Amended claim, proved here: whenever
execute_job returns a failed JobResult, the recorded error_stage is
exactly error_stage_of applied to the JobStatus that was current
immediately before the failure (the last progress status recorded before
FAILED), and it never equals "failed". -/
theorem C3_error_stage_label (env : OrchEnv) (s : OrchState) (id : String)
    (s2 : OrchState) (res : JobResult) (tr : List Eff)
    (h : execute_job env s id = (s2, Except.ok res, tr))
    (hf : res.status = JobStatus.failed) :
    ∃ pre st, progressOf tr = pre ++ [st, JobStatus.failed] ∧
      res.error_stage = some (error_stage_of st) ∧
      error_stage_of st ≠ "failed" := by
  have hres : (execute_job env s id).2.1 = Except.ok res := by rw [h]
  have htr : (execute_job env s id).2.2 = tr := by rw [h]
  rcases hfind : findJob s id with _ | j
  · rw [execute_job_notFound env s id hfind] at hres
    exact absurd hres (by simp)
  · have h1 := update_progress_self s id JobStatus.initializing_vm 10
      "Creating VM session..." j hfind
    have hlink1 : progressOf [Eff.progress JobStatus.initializing_vm,
        Eff.create_session] = [] ++ [JobStatus.initializing_vm] := by
      simp [progressOf]
    have main : ∀ r, (execute_job env s id).2.1 = Except.ok r →
        r.status = JobStatus.failed →
        ∃ pre st, progressOf (execute_job env s id).2.2 =
            pre ++ [st, JobStatus.failed] ∧
          r.error_stage = some (error_stage_of st) := by
      unfold execute_job
      rw [hfind]
      dsimp only
      rcases env.create_session with e | vm
      · exact failStage_label _ id _ none j.request.repo_url none j.request.branch
          false e _ [] h1 hlink1
      · exact createRepoStage_label env _ id j.request _ vm _ [] h1 hlink1
    obtain ⟨pre, st, hp, he⟩ := main res hres hf
    rw [htr] at hp
    exact ⟨pre, st, hp, he, error_stage_of_ne_failed st⟩

/-- Witness for C3's amended theorem: the VM-provisioning failure run. -/
theorem C3_error_stage_label_witness :
    ∃ pre st, progressOf [Eff.progress JobStatus.initializing_vm, Eff.create_session,
        Eff.progress JobStatus.failed] = pre ++ [st, JobStatus.failed] ∧
      (JobResult.mk "j1" JobStatus.failed false none
        (some "https://github.com/octo/demo") none (some "main") false 0 0 0 0
        (some "boom") (some "vm_initialization") [] false).error_stage =
        some (error_stage_of st) ∧
      error_stage_of st ≠ "failed" :=
  C3_error_stage_label envVmFail state1 "j1" (execute_job envVmFail state1 "j1").1
    (JobResult.mk "j1" JobStatus.failed false none
      (some "https://github.com/octo/demo") none (some "main") false 0 0 0 0
      (some "boom") (some "vm_initialization") [] false)
    [Eff.progress JobStatus.initializing_vm, Eff.create_session,
      Eff.progress JobStatus.failed] rfl rfl

/-! ## Teardown accounting (C5) -/

theorem failStage_destroyCount (s : OrchState) (id : String) (tr : List Eff)
    (vm : Option String) (ru rp : Option String) (b : String) (cn : Bool)
    (msg : String) :
    (failStage s id tr vm ru rp b cn msg).2.2.countP Eff.isDestroy =
      tr.countP Eff.isDestroy + (match vm with | none => 0 | some _ => 1) := by
  rw [failStage_trace]
  cases vm <;> simp [List.countP_append, List.countP_cons, Eff.isDestroy]

theorem completeStage_destroyCount (env : OrchEnv) (s : OrchState) (id : String)
    (req : JobRequest) (tr : List Eff) (vm : String) (ru : Option String)
    (path b : String) (cn : Bool) (ar : AgentExecutionResult) :
    (completeStage env s id req tr vm ru path b cn ar).2.2.countP Eff.isDestroy =
      tr.countP Eff.isDestroy + 1 := by
  unfold completeStage
  dsimp only
  by_cases hp : (req.push_changes && !ar.commits_created.isEmpty) = true <;>
    simp [hp, finallyDestroy, List.countP_append, List.countP_cons, Eff.isDestroy]

theorem agentStage_destroyCount (env : OrchEnv) (s : OrchState) (id : String)
    (req : JobRequest) (tr : List Eff) (vm : String) (ru : Option String)
    (path b : String) (cn : Bool) :
    (agentStage env s id req tr vm ru path b cn).2.2.countP Eff.isDestroy =
      tr.countP Eff.isDestroy + 1 := by
  unfold agentStage
  dsimp only
  rcases env.agent with e | ar
  · rw [failStage_destroyCount]
    simp [List.countP_append, List.countP_cons, Eff.isDestroy]
  · by_cases hs : ar.success = true
    · simp only [hs, if_true]
      rw [completeStage_destroyCount]
      simp [List.countP_append, List.countP_cons, Eff.isDestroy]
    · simp only [hs, Bool.false_eq_true, if_false]
      rw [failStage_destroyCount]
      simp [List.countP_append, List.countP_cons, Eff.isDestroy]

theorem cloneStage_destroyCount (env : OrchEnv) (s : OrchState) (id : String)
    (req : JobRequest) (tr : List Eff) (vm : String) (ru : Option String)
    (b : String) (cn : Bool) :
    (cloneStage env s id req tr vm ru b cn).2.2.countP Eff.isDestroy =
      tr.countP Eff.isDestroy + 1 := by
  unfold cloneStage
  dsimp only
  rcases env.clone_repository with e | path
  · rw [failStage_destroyCount]
    simp [List.countP_append, List.countP_cons, Eff.isDestroy]
  · by_cases hb : (req.create_new_branch && !cn) = true <;>
      simp only [hb, Bool.false_eq_true, if_true, if_false] <;>
      rw [agentStage_destroyCount] <;>
      simp [List.countP_append, List.countP_cons, Eff.isDestroy]

theorem createRepoStage_destroyCount (env : OrchEnv) (s : OrchState) (id : String)
    (req : JobRequest) (tr : List Eff) (vm : String) :
    (createRepoStage env s id req tr vm).2.2.countP Eff.isDestroy =
      tr.countP Eff.isDestroy + 1 := by
  unfold createRepoStage
  dsimp only
  by_cases hc : req.create_new_repo = true
  · simp only [hc, if_true]
    rcases req.new_repo_config with _ | cfg
    · rw [failStage_destroyCount]
    · rcases env.create_repository with e | cr
      · rw [failStage_destroyCount]
        simp [List.countP_append, List.countP_cons, Eff.isDestroy]
      · by_cases hcr : cr.success = true
        · simp only [hcr, if_true]
          rw [cloneStage_destroyCount]
          simp [List.countP_append, List.countP_cons, Eff.isDestroy]
        · simp only [hcr, Bool.false_eq_true, if_false]
          rw [failStage_destroyCount]
          simp [List.countP_append, List.countP_cons, Eff.isDestroy]
  · simp only [hc, Bool.false_eq_true, if_false]
    rw [cloneStage_destroyCount]

/-- C5: confirmed.  Teardown (destroy_session) is attempted exactly once
per run in which a session was provisioned — i.e. the job exists and
create_session returned — and never otherwise; and the run's outcome is
literally independent of the teardown outcome: execute_job never reads
env.destroy (the Python code wraps the call in try/except and discards
its boolean), so a teardown failure or exception cannot change the job's
terminal JobResult or status. -/
theorem C5_teardown_exactly_once (env : OrchEnv) (s : OrchState) (id : String) :
    ((execute_job env s id).2.2.countP Eff.isDestroy =
      if (findJob s id).isSome = true ∧ env.create_session.isOk = true then 1 else 0) ∧
    (∀ d, execute_job { env with destroy := d } s id = execute_job env s id) := by
  constructor
  · rcases hfind : findJob s id with _ | j
    · rw [execute_job_notFound env s id hfind]
      simp [hfind]
    · unfold execute_job
      rw [hfind]
      dsimp only
      rcases hcs : env.create_session with e | vm
      · rw [failStage_destroyCount]
        simp [hfind, hcs, List.countP_cons, Eff.isDestroy, Except.isOk, Except.toBool]
      · rw [createRepoStage_destroyCount]
        simp [hfind, hcs, List.countP_cons, Eff.isDestroy, Except.isOk, Except.toBool]
  · intro d
    cases env
    rfl

/-! ## Push accounting (C6) -/

theorem pushedFlag_of_failed (env : OrchEnv) (h : pushFailed env) :
    pushedFlag env = false := by
  unfold pushFailed at h
  unfold pushedFlag
  rcases hp : env.push with e | b
  · rfl
  · rw [hp] at h
    exact h

theorem failStage_push (env : OrchEnv) (req : JobRequest) (s : OrchState)
    (id : String) (tr : List Eff) (vm : Option String) (ru rp : Option String)
    (b : String) (cn : Bool) (msg : String) :
    StagePush env req tr (failStage s id tr vm ru rp b cn msg) := by
  intro hex
  obtain ⟨b2, hb⟩ := hex
  rw [failStage_trace] at hb
  left
  refine ⟨b2, ?_⟩
  cases vm <;> simp at hb <;> tauto

theorem completeStage_push (env : OrchEnv) (s : OrchState) (id : String)
    (req : JobRequest) (tr : List Eff) (vm : String) (ru : Option String)
    (path b : String) (cn : Bool) (ar : AgentExecutionResult) :
    (∃ b2, Eff.push b2 ∈ (completeStage env s id req tr vm ru path b cn ar).2.2) →
      (∃ b2, Eff.push b2 ∈ tr) ∨
      ((req.push_changes = true ∧ ar.commits_created ≠ []) ∧
        ∀ res, (completeStage env s id req tr vm ru path b cn ar).2.1 = Except.ok res →
          res.success = true ∧ res.status = JobStatus.completed ∧
            res.pushed = pushedFlag env) := by
  intro hex
  obtain ⟨b2, hb⟩ := hex
  unfold completeStage at hb ⊢
  dsimp only at hb ⊢
  by_cases hp : (req.push_changes && !ar.commits_created.isEmpty) = true
  · right
    constructor
    · constructor
      · exact (Bool.and_eq_true _ _ |>.mp hp).1
      · have h2 := (Bool.and_eq_true _ _ |>.mp hp).2
        simpa using h2
    · intro res hres
      simp only [hp, if_true, finallyDestroy] at hres
      injection hres with hres
      rw [← hres]
      exact ⟨rfl, rfl, rfl⟩
  · left
    simp only [hp, Bool.false_eq_true, if_false, finallyDestroy] at hb
    refine ⟨b2, ?_⟩
    simp at hb
    tauto

theorem agentStage_push (env : OrchEnv) (s : OrchState) (id : String)
    (req : JobRequest) (tr : List Eff) (vm : String) (ru : Option String)
    (path b : String) (cn : Bool) :
    StagePush env req tr (agentStage env s id req tr vm ru path b cn) := by
  intro hex
  unfold agentStage at hex ⊢
  dsimp only at hex ⊢
  rcases hag : env.agent with e | ar
  · simp only [hag] at hex ⊢
    rcases failStage_push env req _ id _ (some vm) ru (some path) b cn e hex with h1 | h2
    · obtain ⟨b2, hb⟩ := h1
      left
      refine ⟨b2, ?_⟩
      simp at hb
      tauto
    · exact Or.inr h2
  · simp only [hag] at hex ⊢
    by_cases hs : ar.success = true
    · simp only [hs, if_true] at hex ⊢
      rcases completeStage_push env _ id req _ vm ru path b cn ar hex with h1 | h2
      · obtain ⟨b2, hb⟩ := h1
        left
        refine ⟨b2, ?_⟩
        simp at hb
        tauto
      · right
        exact ⟨⟨ar, hag, hs, h2.1.1, h2.1.2⟩, h2.2⟩
    · simp only [hs, Bool.false_eq_true, if_false] at hex ⊢
      rcases failStage_push env req _ id _ (some vm) ru (some path) b cn _ hex with h1 | h2
      · obtain ⟨b2, hb⟩ := h1
        left
        refine ⟨b2, ?_⟩
        simp at hb
        tauto
      · exact Or.inr h2

theorem cloneStage_push (env : OrchEnv) (s : OrchState) (id : String)
    (req : JobRequest) (tr : List Eff) (vm : String) (ru : Option String)
    (b : String) (cn : Bool) :
    StagePush env req tr (cloneStage env s id req tr vm ru b cn) := by
  intro hex
  unfold cloneStage at hex ⊢
  dsimp only at hex ⊢
  rcases hcl : env.clone_repository with e | path
  · simp only [hcl] at hex ⊢
    rcases failStage_push env req _ id _ (some vm) ru none b cn e hex with h1 | h2
    · obtain ⟨b2, hb⟩ := h1
      left
      refine ⟨b2, ?_⟩
      simp at hb
      tauto
    · exact Or.inr h2
  · simp only [hcl] at hex ⊢
    by_cases hbr : (req.create_new_branch && !cn) = true
    · simp only [hbr, if_true] at hex ⊢
      rcases agentStage_push env _ id req _ vm ru path _ cn hex with h1 | h2
      · obtain ⟨b2, hb⟩ := h1
        left
        refine ⟨b2, ?_⟩
        simp at hb
        tauto
      · exact Or.inr h2
    · simp only [hbr, Bool.false_eq_true, if_false] at hex ⊢
      rcases agentStage_push env _ id req _ vm ru path b cn hex with h1 | h2
      · obtain ⟨b2, hb⟩ := h1
        left
        refine ⟨b2, ?_⟩
        simp at hb
        tauto
      · exact Or.inr h2

theorem createRepoStage_push (env : OrchEnv) (s : OrchState) (id : String)
    (req : JobRequest) (tr : List Eff) (vm : String) :
    StagePush env req tr (createRepoStage env s id req tr vm) := by
  intro hex
  unfold createRepoStage at hex ⊢
  dsimp only at hex ⊢
  by_cases hc : req.create_new_repo = true
  · simp only [hc, if_true] at hex ⊢
    rcases hcfg : req.new_repo_config with _ | cfg
    · simp only [hcfg] at hex ⊢
      exact failStage_push env req s id tr (some vm) req.repo_url none req.branch
        false "AttributeError" hex
    · simp only [hcfg] at hex ⊢
      rcases hcr : env.create_repository with e | cr
      · simp only [hcr] at hex ⊢
        rcases failStage_push env req _ id _ (some vm) req.repo_url none req.branch
            false e hex with h1 | h2
        · obtain ⟨b2, hb⟩ := h1
          left
          refine ⟨b2, ?_⟩
          simp at hb
          tauto
        · exact Or.inr h2
      · simp only [hcr] at hex ⊢
        by_cases hok : cr.success = true
        · simp only [hok, if_true] at hex ⊢
          rcases cloneStage_push env _ id req _ vm (some cr.html_url)
              cr.default_branch true hex with h1 | h2
          · obtain ⟨b2, hb⟩ := h1
            left
            refine ⟨b2, ?_⟩
            simp at hb
            tauto
          · exact Or.inr h2
        · simp only [hok, Bool.false_eq_true, if_false] at hex ⊢
          rcases failStage_push env req _ id _ (some vm) req.repo_url none req.branch
              false _ hex with h1 | h2
          · obtain ⟨b2, hb⟩ := h1
            left
            refine ⟨b2, ?_⟩
            simp at hb
            tauto
          · exact Or.inr h2
  · simp only [hc, Bool.false_eq_true, if_false] at hex ⊢
    exact cloneStage_push env s id req tr vm req.repo_url req.branch false hex

/-- C6: confirmed.  If a run's trace contains a push attempt, then the
request's push toggle was set and the agent returned a successful result
with at least one commit (push is attempted only under those conditions);
and if moreover the push attempt failed — it raised or reported
success=false — the job still terminates completed with success=true and
pushed=false. -/
theorem C6_push_policy (env : OrchEnv) (s : OrchState) (id : String)
    (s2 : OrchState) (res : JobResult) (tr : List Eff)
    (h : execute_job env s id = (s2, Except.ok res, tr))
    (hpush : ∃ b, Eff.push b ∈ tr) :
    (∃ j ar, findJob s id = some j ∧ j.request.push_changes = true ∧
      env.agent = Except.ok ar ∧ ar.success = true ∧ ar.commits_created ≠ []) ∧
    (pushFailed env → res.status = JobStatus.completed ∧ res.success = true ∧
      res.pushed = false) := by
  have hres : (execute_job env s id).2.1 = Except.ok res := by rw [h]
  have htr : (execute_job env s id).2.2 = tr := by rw [h]
  rcases hfind : findJob s id with _ | j
  · rw [execute_job_notFound env s id hfind] at htr
    rw [← htr] at hpush
    simp at hpush
  · have hstep : StagePush env j.request [Eff.progress JobStatus.initializing_vm,
        Eff.create_session] ((execute_job env s id).1, (execute_job env s id).2.1,
          (execute_job env s id).2.2) := by
      unfold execute_job
      rw [hfind]
      dsimp only
      rcases hcs : env.create_session with e | vm
      · exact failStage_push env j.request _ id _ none j.request.repo_url none
          j.request.branch false e
      · exact createRepoStage_push env _ id j.request _ vm
    rw [htr, hres] at hstep
    rcases hstep ⟨hpush.choose, hpush.choose_spec⟩ with h1 | h2
    · obtain ⟨b2, hb⟩ := h1
      simp at hb
    · obtain ⟨⟨ar, hag, hs2, hpc, hcm⟩, hr⟩ := h2
      obtain ⟨hsucc, hst, hpu⟩ := hr res rfl
      refine ⟨⟨j, ar, rfl, hpc, hag, hs2, hcm⟩, ?_⟩
      intro hpf
      exact ⟨hst, hsucc, by rw [hpu, pushedFlag_of_failed env hpf]⟩

/-- Witness for C6: the run of envPushFail on state1, whose push attempt
reports failure yet whose job completes with success=true and
pushed=false. -/
theorem C6_push_policy_witness :
    (∃ j ar, findJob state1 "j1" = some j ∧ j.request.push_changes = true ∧
      envPushFail.agent = Except.ok ar ∧ ar.success = true ∧
      ar.commits_created ≠ []) ∧
    (pushFailed envPushFail →
      (JobResult.mk "j1" JobStatus.completed true (some "vm1")
        (some "https://github.com/octo/demo") (some "/home/user/demo")
        (some "vibecoder-j1") false 1 1 1 9 none none ["c1"] false).status =
          JobStatus.completed ∧
      (JobResult.mk "j1" JobStatus.completed true (some "vm1")
        (some "https://github.com/octo/demo") (some "/home/user/demo")
        (some "vibecoder-j1") false 1 1 1 9 none none ["c1"] false).success = true ∧
      (JobResult.mk "j1" JobStatus.completed true (some "vm1")
        (some "https://github.com/octo/demo") (some "/home/user/demo")
        (some "vibecoder-j1") false 1 1 1 9 none none ["c1"] false).pushed = false) :=
  C6_push_policy envPushFail state1 "j1" (execute_job envPushFail state1 "j1").1
    (JobResult.mk "j1" JobStatus.completed true (some "vm1")
      (some "https://github.com/octo/demo") (some "/home/user/demo")
      (some "vibecoder-j1") false 1 1 1 9 none none ["c1"] false)
    [Eff.progress JobStatus.initializing_vm, Eff.create_session,
     Eff.progress JobStatus.cloning_repo, Eff.clone,
     Eff.create_branch "vibecoder-j1",
     Eff.progress JobStatus.executing_agent, Eff.agent,
     Eff.progress JobStatus.pushing_changes, Eff.push "vibecoder-j1",
     Eff.progress JobStatus.completed, Eff.destroy "vm1"]
    rfl ⟨"vibecoder-j1", by decide⟩

/-! ## C4 — exact validation behaviour -/

/-- C4: corrected (see C4_counterexample: a request with both an existing
repository url and a new-repository configuration is accepted).  Amended
claim, proved here: request validation — JobRequest.model_post_init, run
by pydantic at construction time, before create_job can register anything
and without touching the registry — rejects exactly the requests that
lack the field their create_new_repo flag requires (new-repo mode without
a config; existing-repo mode without a non-empty repo_url); and every
validated request is registered by create_job as a Job in status pending. -/
theorem C4_validation_exact (r : JobRequest) :
    ((∃ e, JobRequest.model_post_init r = Except.error e) ↔
      ((r.create_new_repo = true ∧ r.new_repo_config = none) ∨
       (r.create_new_repo = false ∧ pyFalsy r.repo_url = true))) ∧
    (∀ s id, JobRequest.model_post_init r = Except.ok r →
      ((create_job s id r).2.progress.status = JobStatus.pending ∧
        findJob (create_job s id r).1 id = some (create_job s id r).2)) := by
  constructor
  · unfold JobRequest.model_post_init
    by_cases hc : r.create_new_repo = true
    · by_cases hn : r.new_repo_config = none <;> simp [hc, hn]
    · have hc2 : r.create_new_repo = false := by simpa using hc
      by_cases hu : pyFalsy r.repo_url = true <;> simp [hc2, hu]
  · intro s id _
    exact ⟨rfl, findJob_setJob_self _ _ _⟩

/-- Witness for C4's amended theorem: registering the both-fields request. -/
theorem C4_validation_exact_witness :
    (create_job emptyState "j3" reqBoth).2.progress.status = JobStatus.pending ∧
    findJob (create_job emptyState "j3" reqBoth).1 "j3" =
      some (create_job emptyState "j3" reqBoth).2 :=
  (C4_validation_exact reqBoth).2 emptyState "j3" rfl
